import Mathlib

/-!
Verification development for the literature-review job pipeline.

The definitions below are a shallow embedding of the pipeline code:
  * `literature/tasks.py`  — `sanitize_text`, `update_task_progress`,
    `generate_review_task` (search, per-paper download/extract/summarize loop,
    collection, final generation);
  * `literature/views.py`  — `ReviewTaskViewSet.cancel`, `ReviewTaskViewSet.create`;
  * `litapp/utils.py`      — `get_pdf_cache_path`, `is_valid_pdf_url`,
    `download_pdf`, `extract_text_from_pdf`;
  * `litapp/tasks.py`      — `process_pdf_and_extract_text`;
  * `litapp/views.py` / `litapp/services.py` — submission with the
    pending-job cap.

External effects (HTTP responses, OpenAI responses, PDF page text, generated
uuid file names) are inputs supplied through environment records; Python float
arithmetic on progress percentages is modelled with exact rationals; Django
model rows are records, and every `task.save()` appends a snapshot of the task
row to a trace of persisted states.
-/

/-! ## String helpers (Python semantics) -/

/-- `a.startswith`-style check on character lists. -/
def listStarts : List Char → List Char → Bool
  | [], _ => true
  | _ :: _, [] => false
  | a :: as, b :: bs => a == b && listStarts as bs

/-- Python `needle in hay` on character lists: `needle` occurs contiguously. -/
def listHasSub (n : List Char) : List Char → Bool
  | [] => n.isEmpty
  | c :: cs => listStarts n (c :: cs) || listHasSub n cs

/-- Python substring membership `n in h`. -/
def strHasSub (n h : String) : Bool := listHasSub n.toList h.toList

/-- `sanitize_text` (literature/tasks.py): removes NUL characters
(`'\x00'` and `'\u0000'` are the same character). -/
def sanitizeText (s : String) : String :=
  String.mk (s.toList.filter (fun c => c != Char.ofNat 0))

/-- Strip leading and trailing whitespace from a character list. -/
def listTrim (l : List Char) : List Char :=
  ((l.dropWhile Char.isWhitespace).reverse.dropWhile Char.isWhitespace).reverse

/-- Python `s.strip()`. -/
def pyStrip (s : String) : String := String.mk (listTrim s.toList)

/-- Python `s.lower()` (ASCII case folding). -/
def pyLower (s : String) : String := String.mk (s.toList.map Char.toLower)

/-- Split a character list on whitespace runs, dropping empty pieces. -/
def wordsAux : List Char → List Char → List (List Char)
  | [], acc => if acc.isEmpty then [] else [acc.reverse]
  | c :: cs, acc =>
    if c.isWhitespace then
      if acc.isEmpty then wordsAux cs [] else acc.reverse :: wordsAux cs []
    else wordsAux cs (c :: acc)

/-- Python `s.split()` with no arguments: split on whitespace runs,
dropping empty pieces. -/
def pyWords (s : String) : List String := (wordsAux s.toList []).map String.mk

/-- `len(s.split())`, the word count used for the 3000-word threshold. -/
def wordCount (s : String) : Nat := (pyWords s).length

/-- Left-to-right, non-overlapping replacement of `pat` by `rep` (fuelled by
the input length, so it is structurally recursive). -/
def replaceAux (pat rep : List Char) : Nat → List Char → List Char
  | 0, l => l
  | _ + 1, [] => []
  | n + 1, c :: cs =>
    if listStarts pat (c :: cs) && !pat.isEmpty then
      rep ++ replaceAux pat rep n (List.drop (pat.length - 1) cs)
    else c :: replaceAux pat rep n cs

/-- Python slicing `s[:n]`: the first `n` code points. -/
def pyTake (s : String) (n : Nat) : String := String.mk (s.toList.take n)

/-- Python `s.replace(pat, rep)`. -/
def pyReplace (s pat rep : String) : String :=
  String.mk (replaceAux pat.toList rep.toList s.toList.length s.toList)

/-- Collect the last `/`-separated segment of a character list. -/
def lastSegAux : List Char → List Char → List Char
  | [], acc => acc.reverse
  | c :: cs, acc => if c = '/' then lastSegAux cs [] else lastSegAux cs (c :: acc)

/-- `p_data['id'].split('/')[-1]`: the last `/`-separated segment. -/
def lastSeg (s : String) : String := String.mk (lastSegAux s.toList [])

/-- Python truthiness of an optional string field (`None` and `""` are falsy). -/
def truthy : Option String → Bool
  | none => false
  | some s => s != ""

/-! ## Exact fractions standing in for Python floats

Progress percentages are computed in Python with float arithmetic; the model
uses exact unreduced fractions over `Nat` (every value involved is
non-negative), with comparison by cross multiplication and an interpretation
`toRat` into `ℚ` used by the order-theoretic statements. -/

/-- An exact non-negative fraction `num / den`. -/
structure PyFloat where
  num : Nat
  den : Nat
deriving DecidableEq

/-- Embed a natural number. -/
def PyFloat.ofNat (n : Nat) : PyFloat := ⟨n, 1⟩

/-- The exact value of the fraction `n / t`. -/
def PyFloat.divNat (n t : Nat) : PyFloat := ⟨n, t⟩

/-- Multiply by a natural number. -/
def PyFloat.mulNat (a : PyFloat) (w : Nat) : PyFloat := ⟨a.num * w, a.den⟩

/-- Addition of fractions (no normalization). -/
def PyFloat.add (a b : PyFloat) : PyFloat :=
  ⟨a.num * b.den + b.num * a.den, a.den * b.den⟩

/-- Comparison by cross multiplication. -/
def PyFloat.le (a b : PyFloat) : Bool := Nat.ble (a.num * b.den) (b.num * a.den)

/-- Python `min` on two values. -/
def PyFloat.minF (a b : PyFloat) : PyFloat := if a.le b then a else b

/-- The rational value of the fraction. -/
def PyFloat.toRat (a : PyFloat) : ℚ := (a.num : ℚ) / (a.den : ℚ)

/-! ## Data model (literature app) -/

/-- `ReviewTask.status` choices. -/
inductive JobStatus
  | pending
  | running
  | finished
  | failed
  | canceled
deriving DecidableEq

/-- `ReviewTask.current_stage` choices. -/
inductive JobStage
  | searchingOpenalex
  | downloadingPdfs
  | extractingText
  | summarizingPapers
  | generatingReview
deriving DecidableEq

/-- One `ReviewTask` row.  Modelled from the spec: the `ReviewTask` model
class itself is not among the sources (`literature/models.py` in the tree
holds a different set of models), so the fields are those read and written by
`literature/tasks.py` and `literature/views.py`, with the initial values the
spec gives in its data-model section (created `pending`, zero counters,
progress in `[0,100)`, `result`/`error_message` null). -/
structure ReviewTask where
  status : JobStatus := JobStatus.pending
  currentStage : Option JobStage := none
  papersFound : Nat := 0
  totalPapersTarget : Nat := 0
  papersDownloaded : Nat := 0
  papersExtracted : Nat := 0
  papersSummarized : Nat := 0
  progressPercent : PyFloat := PyFloat.ofNat 0
  result : Option String := none
  errorMessage : Option String := none
  paperIds : List String := []
deriving DecidableEq

/-- A freshly created job row (`ReviewTask.objects.create(..., status='pending')`). -/
def freshTask : ReviewTask := {}

/-- One `Paper` row as used by `literature/tasks.py` (shared across jobs,
keyed by `openalex_id`). -/
structure Paper where
  openalexId : String
  doi : Option String := none
  title : String := "Unknown Title"
  authors : List String := []
  year : Option Nat := none
  pdfUrl : Option String := none
  pdfPath : Option String := none
  extractedText : Option String := none
  summary : Option String := none
deriving DecidableEq

/-- One OpenAlex result record, with `none` marking an absent/null JSON field. -/
structure PaperData where
  workId : String
  doi : Option String := none
  title : Option String := none
  authorships : List (Option String) := []
  publicationYear : Option Nat := none
  oaUrl : Option String := none
deriving DecidableEq

/-- Outcome of the per-paper OpenAI summarization call: a successful
completion, a `RateLimitError`/`APIError`, or any other exception. -/
inductive SummApi
  | ok (content : String)
  | rateOrApi (msg : String)
  | otherFail (msg : String)
deriving DecidableEq

/-- The external-call outcomes for one paper of the loop: the OpenAlex record,
the `requests.get` on the pdf url (exception message, or status code with
content length), the generated uuid for the stored file name, the PyMuPDF
extraction (exception message or concatenated page text), and the
summarization outcome. -/
structure PaperEnv where
  pData : PaperData
  dl : Except String (Nat × Nat)
  fname : String
  ext : Except String String
  summ : SummApi

/-- The environment of one invocation of `generate_review_task`: the OpenAlex
search outcome (exception or result records with their per-paper outcomes) and
the final-review generation call outcome. -/
structure RunEnv where
  search : Except String (List PaperEnv)
  gen : Except String String

/-- External calls made by the loop body, recorded at the exact points where
`generate_review_task` performs `requests.get` on a pdf url, `fitz.open`, and
`client.chat.completions.create`. -/
inductive ExtCall
  | fetchPdf
  | openPdf
  | chatSumm
deriving DecidableEq

/-- One entry of `processed_papers`. -/
structure ProcEntry where
  title : String
  citation : String
  doi : Option String
  summary : String
deriving DecidableEq

/-! ## Progress computation (`update_task_progress`) -/

/-- Partial credit of one counter-driven stage:
`(counter / total_target) * stage_weight` once the counter is positive. -/
def creditTerm (n target w : Nat) : PyFloat :=
  if 0 < n then (PyFloat.divNat n target).mulNat w else PyFloat.ofNat 0

/-- The running total computed by `update_task_progress` before the 99 cap:
search weight 5 once found, download/extract/summarize credits with weights
25/25/30, and the generate weight 15 once the stage is `generating_review`. -/
def progVal (t : ReviewTask) : PyFloat :=
  ((((if 0 < t.papersFound then PyFloat.ofNat 5 else PyFloat.ofNat 0).add
    (creditTerm t.papersDownloaded t.totalPapersTarget 25)).add
    (creditTerm t.papersExtracted t.totalPapersTarget 25)).add
    (creditTerm t.papersSummarized t.totalPapersTarget 30)).add
    (if t.currentStage = some JobStage.generatingReview then PyFloat.ofNat 15
     else PyFloat.ofNat 0)

/-- `update_task_progress(task)`: with no target set, the in-memory progress
becomes 0 and nothing is persisted (the function returns before `save`);
otherwise the capped total is stored and persisted.  Returns the updated task
and the list of task rows persisted by the call. -/
def updateTaskProgressStep (t : ReviewTask) : ReviewTask × List ReviewTask :=
  if t.totalPapersTarget = 0 then ({ t with progressPercent := PyFloat.ofNat 0 }, [])
  else
    let t' := { t with progressPercent := (progVal t).minF (PyFloat.ofNat 99) }
    (t', [t'])

/-- The ℚ-valued credit term used to state properties of `creditTerm`. -/
def creditTermQ (n target : Nat) (w : ℚ) : ℚ :=
  if 0 < n then ((n : ℚ) / (target : ℚ)) * w else 0

/-- The ℚ value of `progVal` (proved equal to `(progVal t).toRat` when the
target is positive). -/
def progValQ (t : ReviewTask) : ℚ :=
  (if 0 < t.papersFound then (5 : ℚ) else 0) +
  creditTermQ t.papersDownloaded t.totalPapersTarget 25 +
  creditTermQ t.papersExtracted t.totalPapersTarget 25 +
  creditTermQ t.papersSummarized t.totalPapersTarget 30 +
  (if t.currentStage = some JobStage.generatingReview then (15 : ℚ) else 0)

/-- The spec's wording of the progress formula: weight table
search 5 / download 25 / extract 25 / summarize 30 / generate 15, partial
credit `(counter / total_target) * stage_weight`, full search weight once
`found > 0`, full generate weight once the stage is generating.  Stated from
the spec text for comparison with `updateTaskProgressStep`. -/
def specProgressFormula (target found dc ec sc : Nat) (generating : Bool) : ℚ :=
  (if 0 < found then (5 : ℚ) else 0) +
  (dc : ℚ) / (target : ℚ) * 25 +
  (ec : ℚ) / (target : ℚ) * 25 +
  (sc : ℚ) / (target : ℚ) * 30 +
  (if generating then (15 : ℚ) else 0)

/-! ## The per-paper loop of `generate_review_task` -/

/-- `Paper.objects.get_or_create(openalex_id=..., defaults={...})` over the
shared paper table, with the defaults of lines 129-138. -/
def getOrCreatePaper (tbl : List Paper) (pd : PaperData) : Paper × List Paper :=
  let oaId := lastSeg pd.workId
  match tbl.find? (fun p => p.openalexId == oaId) with
  | some p => (p, tbl)
  | none =>
    let p : Paper :=
      { openalexId := oaId
        doi := pd.doi.map (fun d => pyReplace d "https://doi.org/" "")
        title := pd.title.getD "Unknown Title"
        authors := pd.authorships.map (fun a => a.getD "Unknown")
        year := pd.publicationYear
        pdfUrl := pd.oaUrl }
    (p, tbl ++ [p])

/-- Write back a paper row (`paper.save()`) into the shared table. -/
def tableSet (tbl : List Paper) (p : Paper) : List Paper :=
  tbl.map (fun q => if q.openalexId == p.openalexId then p else q)

/-- The metadata refresh of lines 141-146 (`or` keeps the old value when the
new one is falsy; the value lists are empty-checked the same way). -/
def metaUpdate (p : Paper) (pd : PaperData) : Paper :=
  { p with
    title := pd.title.getD p.title
    authors :=
      match pd.authorships.map (fun a => a.getD "") with
      | [] => p.authors
      | l => l
    year :=
      match pd.publicationYear with
      | some y => if y = 0 then p.year else some y
      | none => p.year
    pdfUrl :=
      match pd.oaUrl with
      | some u => if u = "" then p.pdfUrl else some u
      | none => p.pdfUrl }

/-- Result of the download section (lines 150-166). -/
structure DlOut where
  paper : Paper
  table : List Paper
  dc : Nat
  errors : List String
  calls : List ExtCall
deriving DecidableEq

/-- Download section: attempted only `if paper.pdf_url and not paper.pdf_path`;
a 200 response longer than 50000 bytes is stored under a fresh uuid name and
counted, any exception is recorded as a per-paper error. -/
def dlStep (pe : PaperEnv) (p : Paper) (tbl : List Paper) (dc : Nat)
    (errs : List String) (calls : List ExtCall) : DlOut :=
  if truthy p.pdfUrl && !truthy p.pdfPath then
    let calls := calls ++ [ExtCall.fetchPdf]
    match pe.dl with
    | Except.ok cr =>
      if cr.1 = 200 && cr.2 > 50000 then
        let p' := { p with pdfPath := some ("pdfs/" ++ pe.fname ++ ".pdf") }
        ⟨p', tableSet tbl p', dc + 1, errs, calls⟩
      else ⟨p, tbl, dc, errs, calls⟩
    | Except.error e =>
      ⟨p, tbl, dc, errs ++ ["PDF download failed for " ++ p.title ++ ": " ++ e], calls⟩
  else ⟨p, tbl, dc, errs, calls⟩

/-- Result of the extraction section (lines 172-197); `snaps` holds the task
rows this section persisted (the `current_stage = 'extracting_text'` save). -/
structure ExtOut where
  task : ReviewTask
  paper : Paper
  table : List Paper
  ec : Nat
  errors : List String
  calls : List ExtCall
  snaps : List ReviewTask
deriving DecidableEq

/-- Extraction section: attempted only `if paper.pdf_path and not
paper.extracted_text`; text whose stripped length exceeds 200 is truncated to
100000 characters, sanitized and stored; exceptions are recorded. -/
def extStep (pe : PaperEnv) (t : ReviewTask) (p : Paper) (tbl : List Paper)
    (ec : Nat) (errs : List String) (calls : List ExtCall) : ExtOut :=
  if truthy p.pdfPath && !truthy p.extractedText then
    let t' := { t with currentStage := some JobStage.extractingText }
    let calls := calls ++ [ExtCall.openPdf]
    match pe.ext with
    | Except.ok text =>
      if (pyStrip text).length > 200 then
        let p' := { p with extractedText := some (sanitizeText (pyTake text 100000)) }
        ⟨t', p', tableSet tbl p', ec + 1, errs, calls, [t']⟩
      else ⟨t', p, tbl, ec, errs, calls, [t']⟩
    | Except.error e =>
      ⟨t', p, tbl, ec, errs ++ ["Text extraction failed for " ++ p.title ++ ": " ++ e],
        calls, [t']⟩
  else ⟨t, p, tbl, ec, errs, calls, []⟩

/-- Result of the summarization section (lines 203-249). -/
structure SummOut where
  task : ReviewTask
  paper : Paper
  table : List Paper
  sc : Nat
  errors : List String
  calls : List ExtCall
  snaps : List ReviewTask
deriving DecidableEq

/-- Summarization section: attempted only `if paper.extracted_text and not
paper.summary`; a stripped completion longer than 100 characters is sanitized
and stored and counted, a short one stores the sentinel
`"[Summary too short or invalid]"`, a `RateLimitError`/`APIError` stores
`"[OpenAI API error]"`, any other exception stores `"[Summary failed]"`. -/
def summStep (pe : PaperEnv) (t : ReviewTask) (p : Paper) (tbl : List Paper)
    (sc : Nat) (errs : List String) (calls : List ExtCall) : SummOut :=
  if truthy p.extractedText && !truthy p.summary then
    let t' := { t with currentStage := some JobStage.summarizingPapers }
    let calls := calls ++ [ExtCall.chatSumm]
    match pe.summ with
    | SummApi.ok content =>
      let s := pyStrip content
      if s != "" && s.length > 100 then
        let p' := { p with summary := some (sanitizeText s) }
        ⟨t', p', tableSet tbl p', sc + 1, errs, calls, [t']⟩
      else
        let p' := { p with summary := some "[Summary too short or invalid]" }
        ⟨t', p', tableSet tbl p', sc, errs, calls, [t']⟩
    | SummApi.rateOrApi e =>
      let p' := { p with summary := some "[OpenAI API error]" }
      ⟨t', p', tableSet tbl p', sc,
        errs ++ ["OpenAI error for " ++ p.title ++ ": " ++ e], calls, [t']⟩
    | SummApi.otherFail e =>
      let p' := { p with summary := some "[Summary failed]" }
      ⟨t', p', tableSet tbl p', sc,
        errs ++ ["Summarization failed for " ++ p.title ++ ": " ++ e], calls, [t']⟩
  else ⟨t, p, tbl, sc, errs, calls, []⟩

/-- `"n.d."` fallback: `paper.year or "n.d."` (0 is falsy in Python). -/
def yearStr : Option Nat → String
  | none => "n.d."
  | some y => if y = 0 then "n.d." else toString y

/-- The collection condition of line 252: a non-empty summary that does not
contain `"[failed]"` case-insensitively and is longer than 100 characters. -/
def collectCond (p : Paper) : Bool :=
  match p.summary with
  | none => false
  | some s => s != "" && !strHasSub "[failed]" (pyLower s) && decide (s.length > 100)

/-- Collection section (lines 251-261): build the citation
(`authors[0].split()[-1]`, which raises `IndexError` into the per-paper
handler when the first author name has no words) and append the entry. -/
def collectStep (p : Paper) (processed : List ProcEntry) (errs : List String) :
    List ProcEntry × List String :=
  if collectCond p then
    match p.authors with
    | [] =>
      (processed ++ [⟨p.title, "(Unknown et al., " ++ yearStr p.year ++ ")",
        p.doi, p.summary.getD ""⟩], errs)
    | a :: _ =>
      match (pyWords a).getLast? with
      | some w =>
        (processed ++ [⟨p.title, "(" ++ w ++ " et al., " ++ yearStr p.year ++ ")",
          p.doi, p.summary.getD ""⟩], errs)
      | none =>
        (processed, errs ++ ["Failed to process " ++ p.title ++ ": list index out of range"])
  else (processed, errs)

/-- `task.papers.add(paper)` on the many-to-many relation (set-like add). -/
def addId (ids : List String) (i : String) : List String :=
  if ids.contains i then ids else ids ++ [i]

/-- The in-flight state of one invocation: current in-memory task row, shared
paper table, the local counters `download_count`/`extract_count`/
`summarize_count`, `processed_papers`, `paper_errors`, the external calls made,
and the trace of every persisted task row so far. -/
structure LoopState where
  task : ReviewTask
  table : List Paper
  dc : Nat
  ec : Nat
  sc : Nat
  processed : List ProcEntry
  errors : List String
  calls : List ExtCall
  snaps : List ReviewTask
deriving DecidableEq

/-- One iteration of `for idx, p_data in enumerate(papers_data[:30])`
(lines 120-261): get-or-create and refresh the paper, add it to the job,
run the download / extract / summarize sections with their counter saves and
progress updates, then collect. -/
def loopStep (ls : LoopState) (pe : PaperEnv) : LoopState :=
  let gc := getOrCreatePaper ls.table pe.pData
  let p1 := metaUpdate gc.1 pe.pData
  let tbl1 := tableSet gc.2 p1
  let t0 := { ls.task with paperIds := addId ls.task.paperIds p1.openalexId }
  let d := dlStep pe p1 tbl1 ls.dc ls.errors ls.calls
  let t1 := { t0 with papersDownloaded := d.dc }
  let u1 := updateTaskProgressStep t1
  let e := extStep pe u1.1 d.paper d.table ls.ec d.errors d.calls
  let t2 := { e.task with papersExtracted := e.ec }
  let u2 := updateTaskProgressStep t2
  let s := summStep pe u2.1 e.paper e.table ls.sc e.errors e.calls
  let t3 := { s.task with papersSummarized := s.sc }
  let u3 := updateTaskProgressStep t3
  let c := collectStep s.paper ls.processed s.errors
  { task := u3.1
    table := s.table
    dc := d.dc
    ec := e.ec
    sc := s.sc
    processed := c.1
    errors := c.2
    calls := s.calls
    snaps := ls.snaps ++ ([t1] ++ u1.2 ++ e.snaps ++ [t2] ++ u2.2 ++ s.snaps ++ [t3] ++ u3.2) }

/-! ## Whole-invocation driver (`generate_review_task`) -/

/-- Lines 74-76: the first save of the invocation sets `status='running'`,
`current_stage='searching_openalex'` on the row loaded from the store. -/
def startTask (t : ReviewTask) : ReviewTask :=
  { t with status := JobStatus.running, currentStage := some JobStage.searchingOpenalex }

/-- The top-level exception handler (lines 354-358): persist the error
message, `status='failed'`, `current_stage=None`. -/
def searchFailState (t1 : ReviewTask) (tbl : List Paper) (msg : String) : LoopState :=
  let tf := { t1 with
    status := JobStatus.failed
    errorMessage := some msg
    currentStage := none }
  ⟨tf, tbl, 0, 0, 0, [], [], [], [t1, tf]⟩

/-- Lines 104-114: after a successful search, record `papers_found` and
`total_papers_target`, save, update progress, and save
`current_stage='downloading_pdfs'`; the loop then starts with zero local
counters. -/
def preludeState (t1 : ReviewTask) (tbl : List Paper) (pes : List PaperEnv) : LoopState :=
  let t2 := { t1 with papersFound := pes.length, totalPapersTarget := pes.length }
  let u := updateTaskProgressStep t2
  let t4 := { u.1 with currentStage := some JobStage.downloadingPdfs }
  ⟨t4, tbl, 0, 0, 0, [], [], [], [t1, t2] ++ u.2 ++ [t4]⟩

/-- The error summary persisted when no paper could be processed
(lines 272-287). -/
def errorSummaryMsg (dc ec sc found : Nat) (errs : List String) : String :=
  let base := "No papers could be successfully processed for review generation.\n"
    ++ "Downloaded: " ++ toString dc ++ "/" ++ toString found ++ ", "
    ++ "Extracted: " ++ toString ec ++ "/" ++ toString dc ++ ", "
    ++ "Summarized: " ++ toString sc ++ "/" ++ toString ec ++ "\n"
    ++ "Errors encountered: " ++ toString errs.length
  if errs.isEmpty then base
  else base ++ "\n\nSample errors:\n" ++ String.intercalate "\n" (errs.take 5)

/-- The under-length notice appended when the review has fewer than 3000
words (line 332). -/
def lengthNote : String :=
  "\n\n[Note: Review is shorter than 3000 words due to limited source material.]"

/-- Lines 331-340: append the under-length notice when the stripped review
text has fewer than 3000 words, then the processing notes when any paper
errors were recorded. -/
def finalReview (g : String) (nProcessed nFound nErrors : Nat) : String :=
  let r := if wordCount g < 3000 then g ++ lengthNote else g
  if nErrors = 0 then r
  else r ++ "\n\n---\n**Processing Notes**: " ++ toString nProcessed
    ++ " papers successfully processed out of " ++ toString nFound ++ " found. "
    ++ toString nErrors ++ " papers encountered errors during processing."

/-- The terminal success save (lines 342-346): sanitized result, `finished`,
stage cleared, progress set to exactly 100. -/
def finishSave (t : ReviewTask) (review : String) : ReviewTask :=
  { t with
    result := some (sanitizeText review)
    status := JobStatus.finished
    currentStage := none
    progressPercent := PyFloat.ofNat 100 }

/-- Lines 271-352, after the loop: fail when `processed_papers` is empty;
otherwise save `current_stage='generating_review'`, update progress, call the
generation API, fail on exception, and on success persist the final review. -/
def finishJob (ls : LoopState) (pes : List PaperEnv) (gen : Except String String) :
    LoopState :=
  if ls.processed.isEmpty then
    let t := { ls.task with
      errorMessage := some (errorSummaryMsg ls.dc ls.ec ls.sc pes.length ls.errors)
      status := JobStatus.failed }
    { ls with task := t, snaps := ls.snaps ++ [t] }
  else
    let t5 := { ls.task with currentStage := some JobStage.generatingReview }
    let u := updateTaskProgressStep t5
    let snaps := ls.snaps ++ [t5] ++ u.2
    match gen with
    | Except.error m =>
      let t := { u.1 with
        errorMessage := some ("Failed to generate final review: " ++ m)
        status := JobStatus.failed }
      { ls with task := t, snaps := snaps ++ [t] }
    | Except.ok g =>
      let t := finishSave u.1 (finalReview (pyStrip g) ls.processed.length pes.length ls.errors.length)
      { ls with task := t, snaps := snaps ++ [t] }

/-- One invocation of `generate_review_task` on the stored task row `t0` and
shared paper table `tbl`: a failed search or an empty result list raises
`ValueError("Failed to search OpenAlex: ...")` into the top-level handler;
otherwise the loop runs over `papers_data[:30]` and the job is finished. -/
def runInvocation (t0 : ReviewTask) (tbl : List Paper) (env : RunEnv) : LoopState :=
  let t1 := startTask t0
  match env.search with
  | Except.error msg => searchFailState t1 tbl ("Failed to search OpenAlex: " ++ msg)
  | Except.ok pes =>
    if pes.isEmpty then
      searchFailState t1 tbl
        "Failed to search OpenAlex: OpenAlex returned no results for the topic."
    else finishJob ((pes.take 30).foldl loopStep (preludeState t1 tbl pes)) pes env.gen

/-! ## Views (`literature/views.py`) -/

/-- `ReviewTaskViewSet.cancel`: rejected unless the status is `pending` or
`running`; otherwise a best-effort revoke signal is sent to the worker (no
effect on the stored row) and the row is saved with `status='canceled'`,
`current_stage=None`.  Returns the stored row and whether the cancel was
accepted. -/
def cancelView (t : ReviewTask) : ReviewTask × Bool :=
  if t.status != JobStatus.pending && t.status != JobStatus.running then (t, false)
  else ({ t with status := JobStatus.canceled, currentStage := none }, true)

/-- Result of `ReviewTaskViewSet.create`. -/
structure CreateOut where
  tasks : List ReviewTask
  enqueued : Bool
  httpStatus : Nat
deriving DecidableEq

/-- `ReviewTaskViewSet.create`: unconditionally creates a pending task for the
user, enqueues the Celery task, and returns 201 — there is no check of the
user's number of pending-or-running jobs on this path. -/
def reviewTaskCreate (tasks : List ReviewTask) : CreateOut :=
  { tasks := tasks ++ [freshTask], enqueued := true, httpStatus := 201 }

/-- The claim's count of a user's pending-or-running jobs (stated from the
claim to express the cap condition for the literature app's rows). -/
def pendingRunningCount (tasks : List ReviewTask) : Nat :=
  (tasks.filter (fun t => t.status == JobStatus.pending || t.status == JobStatus.running)).length

/-! ## Document fetcher (`litapp/utils.py`) -/

/-- The on-disk pdf cache: a map from path to stored byte size. -/
abbrev Fs := List (String × Nat)

/-- Size of the file at `p`, if present. -/
def fsGet (fs : Fs) (p : String) : Option Nat :=
  (fs.find? (fun e => e.1 == p)).map (fun e => e.2)

/-- `os.remove`. -/
def fsDel (fs : Fs) (p : String) : Fs := fs.filter (fun e => e.1 != p)

/-- Write a file of `n` bytes at `p`. -/
def fsSet (fs : Fs) (p : String) (n : Nat) : Fs := fsDel fs p ++ [(p, n)]

/-- A url as produced by `urllib.parse.urlparse`: the raw string with its
parsed scheme and network location. -/
structure UrlParts where
  raw : String
  scheme : String
  netloc : String
deriving DecidableEq

/-- `is_valid_pdf_url`: non-empty, scheme `http`/`https`, non-empty netloc. -/
def isValidPdfUrl (u : UrlParts) : Bool :=
  u.raw != "" && (u.scheme == "http" || u.scheme == "https") && u.netloc != ""

/-- `PDF_STORAGE_DIR` (`MEDIA_ROOT/pdfs`). -/
def pdfStorageDir : String := "media/pdfs"

/-- `get_pdf_cache_path`: deterministic path from the hash of the url
(the hash function is a parameter of the model). -/
def getPdfCachePath (hash : String → String) (pdfUrl : String) : String :=
  pdfStorageDir ++ "/" ++ hash pdfUrl ++ ".pdf"

/-- An HTTP response for the pdf download: the content type is only logged,
`contentLength` is the declared `content-length` header, `bodyLen` the number
of bytes the streamed body yields. -/
structure NetResp where
  contentType : String := "application/pdf"
  contentLength : Option Nat := none
  bodyLen : Nat
deriving DecidableEq

/-- Result of `download_pdf`: the returned cache path (or `None`), the cache
state afterwards, and whether a network request was issued. -/
structure DlResult where
  path : Option String
  fs : Fs
  netCalled : Bool
deriving DecidableEq

/-- The network part of `download_pdf` (lines 97-160): on any exception the
partial file is removed and `None` returned; a declared content length above
50 MB is rejected before anything is written; otherwise the body is written
to the cache path. -/
def dlFetch (cp : String) (fs : Fs) (net : Except String NetResp) : DlResult :=
  match net with
  | Except.error _ => ⟨none, fsDel fs cp, true⟩
  | Except.ok r =>
    match r.contentLength with
    | some n =>
      if n > 50 * 1024 * 1024 then ⟨none, fs, true⟩
      else ⟨some cp, fsSet fs cp r.bodyLen, true⟩
    | none => ⟨some cp, fsSet fs cp r.bodyLen, true⟩

/-- `download_pdf`: reject invalid urls; return a cached file of more than
1024 bytes without any network call; remove a smaller (corrupted) cached file
and re-download. -/
def downloadPdf (hash : String → String) (u : UrlParts) (fs : Fs)
    (net : Except String NetResp) : DlResult :=
  if !isValidPdfUrl u then ⟨none, fs, false⟩
  else
    let cp := getPdfCachePath hash u.raw
    match fsGet fs cp with
    | some sz =>
      if sz > 1024 then ⟨some cp, fs, false⟩
      else dlFetch cp (fsDel fs cp) net
    | none => dlFetch cp fs net

/-- `extract_text_from_pdf`: empty for a missing, empty, or over-100-MB file;
otherwise the stripped concatenation of the page texts (supplied by the
environment as `pageText`; the 100-page cap is part of how the environment
text is produced). -/
def extractTextFromPdf (fs : Fs) (path : String) (pageText : String) : String :=
  match fsGet fs path with
  | none => ""
  | some sz =>
    if sz = 0 then ""
    else if sz > 100 * 1024 * 1024 then ""
    else pyStrip pageText

/-! ## `litapp/tasks.py` per-paper processing -/

/-- One `litapp` `Paper` row as used by `process_pdf_and_extract_text`. -/
structure LPaper where
  openalexId : String
  title : String := ""
  authors : String := ""
  year : Nat := 0
  doi : Option String := none
  pdfUrl : Option UrlParts := none
  text : Option String := none
  cachedFile : Option String := none
deriving DecidableEq

/-- `os.path.relpath(pdf_path, settings.REPO_CACHE_DIR)`: storage-path
relativization, kept as the identity on the model's abstract paths. -/
def relPathOf (p : String) : String := p

/-- `process_pdf_and_extract_text`: no pdf url means `False`; a paper with
both text and cached file already present returns `True` with no work;
otherwise download (through the cache), extract, and store text and cache
reference together when the stripped text is longer than 100 characters.
Returns the paper, cache state, the boolean result, and whether
`download_pdf` was invoked. -/
def processPdfAndExtractText (hash : String → String) (p : LPaper) (fs : Fs)
    (net : Except String NetResp) (pageText : String) : LPaper × Fs × Bool × Bool :=
  match p.pdfUrl with
  | none => (p, fs, false, false)
  | some u =>
    if truthy p.text && truthy p.cachedFile then (p, fs, true, false)
    else
      let d := downloadPdf hash u fs net
      match d.path with
      | none => (p, d.fs, false, true)
      | some path =>
        let txt := extractTextFromPdf d.fs path pageText
        if txt != "" && (pyStrip txt).length > 100 then
          ({ p with text := some txt, cachedFile := some (relPathOf path) }, d.fs, true, true)
        else (p, d.fs, false, true)

/-! ## Submission paths and the pending-job cap -/

/-- `LiteratureReviewJob.status` values used by the cap check. -/
inductive LJobStatus
  | pending
  | processing
  | completed
  | failed
deriving DecidableEq

/-- The count of the user's jobs with status `pending` or `processing`
(litapp/views.py lines 44-47 and litapp/services.py lines 16-18). -/
def pendingJobsCount (jobs : List LJobStatus) : Nat :=
  (jobs.filter (fun s => s == LJobStatus.pending || s == LJobStatus.processing)).length

/-- Result of `SubmitLiteratureReviewSearch.post`. -/
inductive SubmitResult
  | created (jobs : List LJobStatus)
  | tooMany (n : Nat)
deriving DecidableEq

/-- `SubmitLiteratureReviewSearch.post`: 429 when the user already has 3 or
more pending-or-processing jobs, otherwise a new pending job is created and
enqueued. -/
def submitSearchPost (jobs : List LJobStatus) : SubmitResult :=
  if pendingJobsCount jobs >= 3 then SubmitResult.tooMany (pendingJobsCount jobs)
  else SubmitResult.created (jobs ++ [LJobStatus.pending])

/-- `create_literature_review_job` (litapp/services.py): raises `ValueError`
at 3 or more pending-or-processing jobs, otherwise creates and enqueues. -/
def createLiteratureReviewJob (jobs : List LJobStatus) : Except String (List LJobStatus) :=
  if pendingJobsCount jobs >= 3 then
    Except.error ("Too many pending jobs (" ++ toString (pendingJobsCount jobs) ++ ")")
  else Except.ok (jobs ++ [LJobStatus.pending])

/-! ## Concrete scenario inputs used by the witnesses and counterexamples -/

/-- A 210-character page text (stripped length above the 200 threshold). -/
def txt210 : String := String.mk (List.replicate 210 'a')

/-- A 120-character completion (above the 100-character summary threshold). -/
def sum120 : String := String.mk (List.replicate 120 'b')

/-- A concrete OpenAlex record. -/
def pdW : PaperData :=
  { workId := "https://openalex.org/W1"
    doi := some "https://doi.org/10.1/x"
    title := some "T1"
    authorships := [some "Alice Smith"]
    publicationYear := some 2020
    oaUrl := some "http://x/p1.pdf" }

/-- A paper whose download, extraction and summarization all succeed. -/
def peGood : PaperEnv :=
  { pData := pdW
    dl := Except.ok (200, 60000)
    fname := "u1"
    ext := Except.ok txt210
    summ := SummApi.ok sum120 }

/-- A second record whose download raises a transport error. -/
def pdW2 : PaperData :=
  { workId := "https://openalex.org/W2"
    title := some "T2"
    authorships := [some "Bob Lee"]
    publicationYear := some 2021
    oaUrl := some "http://x/p2.pdf" }

/-- Environment for the second paper: the download request raises. -/
def peBadDl : PaperEnv :=
  { pData := pdW2
    dl := Except.error "connection reset"
    fname := "u2"
    ext := Except.error "no file"
    summ := SummApi.otherFail "no text" }

/-- Search results of the C2 scenario: two candidate papers. -/
def c2Pes : List PaperEnv := [peGood, peBadDl]

/-- First invocation of the C2 scenario, interrupted by a worker crash at the
iteration boundary after fully processing the first paper: the store then
holds the prelude saves plus the first iteration's saves. -/
def c2Mid : LoopState :=
  (c2Pes.take 1).foldl loopStep (preludeState (startTask freshTask) [] c2Pes)

/-- Environment of the re-invocation: the same two search results. -/
def c2Env2 : RunEnv := { search := Except.ok c2Pes, gen := Except.ok "w" }

/-- The re-invocation of the same job on the stored mid-run state. -/
def c2Run : LoopState := runInvocation c2Mid.task c2Mid.table c2Env2

/-- A one-paper environment in which everything succeeds. -/
def goodEnv : RunEnv := { search := Except.ok [peGood], gen := Except.ok "w" }

/-- A successful one-paper invocation from a fresh job. -/
def goodRun : LoopState := runInvocation freshTask [] goodEnv

/-- The persisted row at the moment a cancel request lands (the
`current_stage='downloading_pdfs'` save, while the worker is mid-loop). -/
def goodSnap3 : ReviewTask := goodRun.snaps.getD 3 freshTask

/-- The next row the still-running worker persists after that point. -/
def goodSnap4 : ReviewTask := goodRun.snaps.getD 4 freshTask

/-- A stored row left by an earlier invocation that failed (`status='failed'`,
`error_message` populated, `result` null), as the worker re-reads it when the
same job id is re-delivered. -/
def staleFailedTask : ReviewTask :=
  { freshTask with
    status := JobStatus.failed
    errorMessage := some "Failed to search OpenAlex: timeout" }

/-- A one-paper environment in which the download fails and nothing else can
proceed, so no paper is collected. -/
def allFailEnv : RunEnv := { search := Except.ok [peBadDl], gen := Except.error "unused" }

/-- The invocation in which every paper fails. -/
def allFailRun : LoopState := runInvocation freshTask [] allFailEnv

/-- Zero search results. -/
def zeroEnv : RunEnv := { search := Except.ok [], gen := Except.error "unused" }

/-- A fully processed paper row (all per-document fields populated). -/
def paperDone : Paper :=
  { openalexId := "W1"
    title := "T1"
    authors := ["Alice Smith"]
    year := some 2020
    pdfUrl := some "http://x/p1.pdf"
    pdfPath := some "pdfs/u0.pdf"
    extractedText := some "tt"
    summary := some sum120 }

/-- A task row mid-stage used to evaluate the progress formula. -/
def c3Task : ReviewTask :=
  { freshTask with
    status := JobStatus.running
    currentStage := some JobStage.downloadingPdfs
    papersFound := 4
    totalPapersTarget := 4
    papersDownloaded := 2
    papersExtracted := 1 }

/-- A concrete hash function instantiating the fetcher's url-hash parameter. -/
def hashW : String → String := fun _ => "k"

/-- A valid http url. -/
def urlGood : UrlParts := { raw := "http://x/p1.pdf", scheme := "http", netloc := "x" }

/-- A non-HTTP(S) url. -/
def urlFtp : UrlParts := { raw := "ftp://x/p1.pdf", scheme := "ftp", netloc := "x" }

/-- The cache path of `urlGood` under `hashW`. -/
def cachePathW : String := getPdfCachePath hashW urlGood.raw

/-- A 200 response whose body is only 500 bytes (an error page, say). -/
def smallResp : NetResp := { contentLength := none, bodyLen := 500 }

/-- A response declaring a content length above the 50 MB ceiling. -/
def bigResp : NetResp := { contentLength := some (60 * 1024 * 1024), bodyLen := 0 }

/-- A normal 2 MB response. -/
def goodResp : NetResp := { contentLength := some 2000000, bodyLen := 2000000 }

/-- First fetch of `urlGood` on an empty cache: stores the 500-byte body. -/
def c8Dl1 : DlResult := downloadPdf hashW urlGood [] (Except.ok smallResp)

/-- Second fetch of the same url on the resulting cache. -/
def c8Dl2 : DlResult := downloadPdf hashW urlGood c8Dl1.fs (Except.ok smallResp)

/-- A fully processed litapp paper row. -/
def lpDone : LPaper :=
  { openalexId := "W1"
    pdfUrl := some urlGood
    text := some "already extracted text"
    cachedFile := some "media/pdfs/k.pdf" }

/-- Three review tasks of one user, all still running. -/
def threeRunning : List ReviewTask :=
  List.replicate 3 { freshTask with status := JobStatus.running }

/-- Three litapp jobs of one user, all pending. -/
def threePendingL : List LJobStatus := List.replicate 3 LJobStatus.pending

/-- The size-guard predicate of `download_pdf` stated on a response: the
declared content length, when present, is within the 50 MB ceiling. -/
def underLimit (r : NetResp) : Bool :=
  match r.contentLength with
  | some n => decide (n ≤ 52428800)
  | none => true

/-- Bookkeeping for a trace of persisted task rows: the progress values form
a non-decreasing chain in ℚ, the last persisted row carries the given
progress value, and no persisted row is `finished` or reports more than
99 %. -/
structure SnapMeta (snaps : List ReviewTask) (lastP : ℚ) : Prop where
  chain : List.Chain' (· ≤ ·) (snaps.map (fun s => s.progressPercent.toRat))
  lastEq : (snaps.map (fun s => s.progressPercent.toRat)).getLast? = some lastP
  ok : ∀ s ∈ snaps, s.status ≠ JobStatus.finished ∧ s.progressPercent.toRat ≤ 99

/-- The invariant carried through the per-paper loop of one uninterrupted
invocation started on a fresh job: the persisted trace is well-formed, the
in-memory row is `running` in a pre-generating stage, its counters agree with
the loop's local counters, the target is positive, and its progress is the
capped progress formula of its own fields. -/
structure TraceInv (ls : LoopState) : Prop where
  meta : SnapMeta ls.snaps ls.task.progressPercent.toRat
  statusRun : ls.task.status = JobStatus.running
  stageNotGen : ls.task.currentStage ≠ some JobStage.generatingReview
  dcEq : ls.task.papersDownloaded = ls.dc
  ecEq : ls.task.papersExtracted = ls.ec
  scEq : ls.task.papersSummarized = ls.sc
  targetPos : ls.task.totalPapersTarget ≠ 0
  progEq : ls.task.progressPercent.toRat = min (progValQ ls.task) 99
  denPos : 0 < ls.task.progressPercent.den

/-! # Theorems -/

/-! ## Shared helper lemmas -/

theorem PyFloat.toRat_ofNat (n : Nat) : (PyFloat.ofNat n).toRat = (n : ℚ) := by
  simp [PyFloat.ofNat, PyFloat.toRat]

theorem PyFloat.toRat_divNat (n t : Nat) :
    (PyFloat.divNat n t).toRat = (n : ℚ) / (t : ℚ) := rfl

theorem PyFloat.toRat_mulNat (a : PyFloat) (w : Nat) :
    (a.mulNat w).toRat = a.toRat * (w : ℚ) := by
  rw [PyFloat.mulNat, PyFloat.toRat, PyFloat.toRat]
  push_cast
  rw [div_mul_eq_mul_div]

theorem PyFloat.toRat_add (a b : PyFloat) (ha : 0 < a.den) (hb : 0 < b.den) :
    (a.add b).toRat = a.toRat + b.toRat := by
  have ha' : ((a.den : ℚ)) ≠ 0 := by positivity
  have hb' : ((b.den : ℚ)) ≠ 0 := by positivity
  rw [PyFloat.add, PyFloat.toRat, PyFloat.toRat, PyFloat.toRat]
  push_cast
  field_simp

theorem PyFloat.add_den_pos (a b : PyFloat) (ha : 0 < a.den) (hb : 0 < b.den) :
    0 < (a.add b).den := Nat.mul_pos ha hb

theorem PyFloat.le_iff (a b : PyFloat) (ha : 0 < a.den) (hb : 0 < b.den) :
    (a.le b = true) ↔ a.toRat ≤ b.toRat := by
  have ha' : (0 : ℚ) < (a.den : ℚ) := by exact_mod_cast ha
  have hb' : (0 : ℚ) < (b.den : ℚ) := by exact_mod_cast hb
  rw [PyFloat.le, Nat.ble_eq, PyFloat.toRat, PyFloat.toRat, div_le_div_iff₀ ha' hb']
  exact ⟨fun h => by exact_mod_cast h, fun h => by exact_mod_cast h⟩

theorem PyFloat.minF_toRat (a b : PyFloat) (ha : 0 < a.den) (hb : 0 < b.den) :
    (a.minF b).toRat = min a.toRat b.toRat := by
  rw [PyFloat.minF]
  rcases h : a.le b with _ | _
  · rw [if_neg (by simp [h])]
    have : ¬ a.toRat ≤ b.toRat := fun hc => by
      rw [← PyFloat.le_iff a b ha hb] at hc
      rw [h] at hc
      cases hc
    exact (min_eq_right (le_of_not_le this)).symm
  · rw [if_pos (by simp [h])]
    exact (min_eq_left ((PyFloat.le_iff a b ha hb).mp h)).symm

theorem PyFloat.minF_den_pos (a b : PyFloat) (ha : 0 < a.den) (hb : 0 < b.den) :
    0 < (a.minF b).den := by
  rw [PyFloat.minF]
  split <;> assumption

theorem creditTerm_toRat (n target w : Nat) :
    (creditTerm n target w).toRat = creditTermQ n target (w : ℚ) := by
  unfold creditTerm creditTermQ
  split
  · rw [PyFloat.toRat_mulNat, PyFloat.toRat_divNat]
  · simp [PyFloat.toRat_ofNat]

theorem creditTerm_den_pos (n target w : Nat) (h : 0 < target) :
    0 < (creditTerm n target w).den := by
  unfold creditTerm
  split
  · exact h
  · exact Nat.one_pos

theorem ofNat_den_pos (n : Nat) : 0 < (PyFloat.ofNat n).den := Nat.one_pos

theorem progVal_toRat (t : ReviewTask) (h : 0 < t.totalPapersTarget) :
    (progVal t).toRat = progValQ t := by
  have hfd : 0 < (if 0 < t.papersFound then PyFloat.ofNat 5 else PyFloat.ofNat 0).den := by
    split <;> exact Nat.one_pos
  have hgd : 0 < (if t.currentStage = some JobStage.generatingReview then PyFloat.ofNat 15
      else PyFloat.ofNat 0).den := by
    split <;> exact Nat.one_pos
  have hd1 := creditTerm_den_pos t.papersDownloaded t.totalPapersTarget 25 h
  have hd2 := creditTerm_den_pos t.papersExtracted t.totalPapersTarget 25 h
  have hd3 := creditTerm_den_pos t.papersSummarized t.totalPapersTarget 30 h
  have ha1 := PyFloat.add_den_pos _ _ hfd hd1
  have ha2 := PyFloat.add_den_pos _ _ ha1 hd2
  have ha3 := PyFloat.add_den_pos _ _ ha2 hd3
  unfold progVal progValQ
  rw [PyFloat.toRat_add _ _ ha3 hgd, PyFloat.toRat_add _ _ ha2 hd3,
    PyFloat.toRat_add _ _ ha1 hd2, PyFloat.toRat_add _ _ hfd hd1,
    creditTerm_toRat, creditTerm_toRat, creditTerm_toRat]
  have e1 : (if 0 < t.papersFound then PyFloat.ofNat 5 else PyFloat.ofNat 0).toRat =
      (if 0 < t.papersFound then (5 : ℚ) else 0) := by
    split <;> simp [PyFloat.toRat_ofNat]
  have e2 : (if t.currentStage = some JobStage.generatingReview then PyFloat.ofNat 15
      else PyFloat.ofNat 0).toRat =
      (if t.currentStage = some JobStage.generatingReview then (15 : ℚ) else 0) := by
    split <;> simp [PyFloat.toRat_ofNat]
  rw [e1, e2]
  norm_num

theorem progVal_den_pos (t : ReviewTask) (h : 0 < t.totalPapersTarget) :
    0 < (progVal t).den := by
  unfold progVal
  apply PyFloat.add_den_pos
  · apply PyFloat.add_den_pos
    · apply PyFloat.add_den_pos
      · apply PyFloat.add_den_pos
        · split <;> exact Nat.one_pos
        · exact creditTerm_den_pos _ _ _ h
      · exact creditTerm_den_pos _ _ _ h
    · exact creditTerm_den_pos _ _ _ h
  · split <;> exact Nat.one_pos

theorem creditTermQ_eq (n target : Nat) (w : ℚ) :
    creditTermQ n target w = (n : ℚ) / (target : ℚ) * w := by
  rcases Nat.eq_zero_or_pos n with h0 | hp
  · subst h0; simp [creditTermQ]
  · simp [creditTermQ, hp]

theorem creditTermQ_nonneg (n target : Nat) (w : ℚ) (hw : 0 ≤ w) :
    0 ≤ creditTermQ n target w := by
  rw [creditTermQ_eq]
  positivity

theorem creditTermQ_mono (n m target : Nat) (w : ℚ) (hw : 0 ≤ w) (h : n ≤ m) :
    creditTermQ n target w ≤ creditTermQ m target w := by
  rw [creditTermQ_eq, creditTermQ_eq]
  have hn : (n : ℚ) ≤ (m : ℚ) := by exact_mod_cast h
  have ht : (0 : ℚ) ≤ ((target : ℚ))⁻¹ * w :=
    mul_nonneg (inv_nonneg.mpr (by positivity)) hw
  calc (n : ℚ) / (target : ℚ) * w = (n : ℚ) * (((target : ℚ))⁻¹ * w) := by
        rw [div_eq_mul_inv, mul_assoc]
    _ ≤ (m : ℚ) * (((target : ℚ))⁻¹ * w) := mul_le_mul_of_nonneg_right hn ht
    _ = (m : ℚ) / (target : ℚ) * w := by rw [div_eq_mul_inv, mul_assoc]

theorem progValQ_nonneg (t : ReviewTask) : 0 ≤ progValQ t := by
  unfold progValQ
  have h1 : (0 : ℚ) ≤ (if 0 < t.papersFound then (5 : ℚ) else 0) := by positivity
  have h5 : (0 : ℚ) ≤
      (if t.currentStage = some JobStage.generatingReview then (15 : ℚ) else 0) := by positivity
  have h2 := creditTermQ_nonneg t.papersDownloaded t.totalPapersTarget 25 (by norm_num)
  have h3 := creditTermQ_nonneg t.papersExtracted t.totalPapersTarget 25 (by norm_num)
  have h4 := creditTermQ_nonneg t.papersSummarized t.totalPapersTarget 30 (by norm_num)
  linarith

theorem progValQ_mono (t t' : ReviewTask)
    (htar : t.totalPapersTarget = t'.totalPapersTarget)
    (hf : t.papersFound ≤ t'.papersFound)
    (hd : t.papersDownloaded ≤ t'.papersDownloaded)
    (he : t.papersExtracted ≤ t'.papersExtracted)
    (hs : t.papersSummarized ≤ t'.papersSummarized)
    (hg : t.currentStage = some JobStage.generatingReview →
      t'.currentStage = some JobStage.generatingReview) :
    progValQ t ≤ progValQ t' := by
  unfold progValQ
  rw [htar]
  have h1 : (if 0 < t.papersFound then (5 : ℚ) else 0) ≤
      (if 0 < t'.papersFound then (5 : ℚ) else 0) := by
    split
    · rw [if_pos (lt_of_lt_of_le (by assumption) hf)]
    · split <;> norm_num
  have h5 : (if t.currentStage = some JobStage.generatingReview then (15 : ℚ) else 0) ≤
      (if t'.currentStage = some JobStage.generatingReview then (15 : ℚ) else 0) := by
    split
    · rw [if_pos (hg (by assumption))]
    · split <;> norm_num
  have h2 := creditTermQ_mono t.papersDownloaded t'.papersDownloaded t'.totalPapersTarget
    25 (by norm_num) hd
  have h3 := creditTermQ_mono t.papersExtracted t'.papersExtracted t'.totalPapersTarget
    25 (by norm_num) he
  have h4 := creditTermQ_mono t.papersSummarized t'.papersSummarized t'.totalPapersTarget
    30 (by norm_num) hs
  linarith

/-- The persisted progress after `update_task_progress` on a task with a
positive target: its value is the capped ℚ formula and its denominator is
positive. -/
theorem updateStep_toRat (t : ReviewTask) (h : t.totalPapersTarget ≠ 0) :
    (updateTaskProgressStep t).1.progressPercent.toRat = min (progValQ t) 99 ∧
    0 < (updateTaskProgressStep t).1.progressPercent.den := by
  have hpos : 0 < t.totalPapersTarget := Nat.pos_of_ne_zero h
  constructor
  · simp only [updateTaskProgressStep, if_neg h]
    rw [PyFloat.minF_toRat _ _ (progVal_den_pos t hpos) Nat.one_pos,
      progVal_toRat t hpos, PyFloat.toRat_ofNat]
    norm_num
  · simp only [updateTaskProgressStep, if_neg h]
    exact PyFloat.minF_den_pos _ _ (progVal_den_pos t hpos) Nat.one_pos

/-! ## C3: progress weights and the 99 cap -/

/-- C3: `update_task_progress` implements the spec's weight table
(search 5, download 25, extract 25, summarize 30, generate 15) with partial
credit `(counter / total_target) * stage_weight`, the full search weight once
`found > 0` and the full generate weight once the stage is generating; the
persisted running total is capped at 99, and only the terminal success save
(`finishSave`) sets progress to exactly 100. -/
theorem c3_progress_weights (t : ReviewTask) (h : t.totalPapersTarget ≠ 0) :
    (updateTaskProgressStep t).1.progressPercent.toRat =
      min (specProgressFormula t.totalPapersTarget t.papersFound t.papersDownloaded
        t.papersExtracted t.papersSummarized
        (decide (t.currentStage = some JobStage.generatingReview))) 99 ∧
    (updateTaskProgressStep t).1.progressPercent.toRat ≤ 99 ∧
    (∀ r : String, (finishSave t r).progressPercent = PyFloat.ofNat 100 ∧
      (finishSave t r).progressPercent.toRat = 100) := by
  have hval : progValQ t = specProgressFormula t.totalPapersTarget t.papersFound
      t.papersDownloaded t.papersExtracted t.papersSummarized
      (decide (t.currentStage = some JobStage.generatingReview)) := by
    unfold progValQ specProgressFormula
    rw [creditTermQ_eq, creditTermQ_eq, creditTermQ_eq]
    by_cases hg : t.currentStage = some JobStage.generatingReview <;> simp [hg]
  have hu := updateStep_toRat t h
  refine ⟨by rw [hu.1, hval], by rw [hu.1]; exact min_le_right _ _,
    fun r => ⟨rfl, by rw [show (finishSave t r).progressPercent = PyFloat.ofNat 100 from rfl,
      PyFloat.toRat_ofNat]; norm_num⟩⟩

/-- The C3 equalities evaluated at a concrete mid-download task row. -/
theorem c3_witness :
    (updateTaskProgressStep c3Task).1.progressPercent.toRat =
      min (specProgressFormula 4 4 2 1 0 false) 99 ∧
    (updateTaskProgressStep c3Task).1.progressPercent.toRat ≤ 99 ∧
    (finishSave c3Task "r").progressPercent.toRat = 100 := by
  have h := c3_progress_weights c3Task (by decide)
  exact ⟨h.1, h.2.1, (h.2.2 "r").2⟩

/-! ## C7: zero search results fail immediately -/

/-- C7: an invocation whose OpenAlex search returns zero results fails
immediately: `status='failed'`, `current_stage=None`, a non-null descriptive
`error_message`, and none of the found/downloaded/extracted/summarized
counters (nor the progress) of the stored row changes. -/
theorem c7_zero_results_fail (t0 : ReviewTask) (tbl : List Paper) (env : RunEnv)
    (h : env.search = Except.ok []) :
    (runInvocation t0 tbl env).task.status = JobStatus.failed ∧
    (runInvocation t0 tbl env).task.currentStage = none ∧
    (runInvocation t0 tbl env).task.errorMessage =
      some "Failed to search OpenAlex: OpenAlex returned no results for the topic." ∧
    (runInvocation t0 tbl env).task.papersFound = t0.papersFound ∧
    (runInvocation t0 tbl env).task.totalPapersTarget = t0.totalPapersTarget ∧
    (runInvocation t0 tbl env).task.papersDownloaded = t0.papersDownloaded ∧
    (runInvocation t0 tbl env).task.papersExtracted = t0.papersExtracted ∧
    (runInvocation t0 tbl env).task.papersSummarized = t0.papersSummarized ∧
    (runInvocation t0 tbl env).task.progressPercent = t0.progressPercent := by
  simp [runInvocation, h, searchFailState, startTask]

/-- The C7 conclusion at the concrete zero-result environment. -/
theorem c7_witness :
    (runInvocation freshTask [] zeroEnv).task.status = JobStatus.failed ∧
    (runInvocation freshTask [] zeroEnv).task.currentStage = none ∧
    (runInvocation freshTask [] zeroEnv).task.papersFound = 0 := by
  have h := c7_zero_results_fail freshTask [] zeroEnv rfl
  exact ⟨h.1, h.2.1, h.2.2.2.1⟩

/-! ## C5: cancellation -/

/-- C5 amended: cancelling a job whose status is `pending` or `running` is
accepted and, within that one call, persists `status='canceled'` and
`current_stage=None`.  (The second half of the original claim fails: the
worker never re-checks the stored status, see the counterexample.) -/
theorem c5_cancel_sets_canceled (t : ReviewTask)
    (h : t.status = JobStatus.pending ∨ t.status = JobStatus.running) :
    (cancelView t).2 = true ∧
    (cancelView t).1.status = JobStatus.canceled ∧
    (cancelView t).1.currentStage = none := by
  rcases h with h | h <;> simp [cancelView, h]

/-- The C5 conclusion at a concrete running job. -/
theorem c5_witness :
    (cancelView { freshTask with status := JobStatus.running }).1.status =
      JobStatus.canceled ∧
    (cancelView { freshTask with status := JobStatus.running }).1.currentStage = none := by
  have h := c5_cancel_sets_canceled { freshTask with status := JobStatus.running } (Or.inr rfl)
  exact ⟨h.2.1, h.2.2⟩

set_option maxRecDepth 4000 in
/-- C5 counterexample: a canceled job is resurrected.  In the successful
one-paper run, the persisted save number 3 (`current_stage='downloading_pdfs'`)
has status `running`; a cancel request landing at that moment is accepted and
persists `canceled`; but the worker holds its own in-memory row and never
re-reads the stored status, so its next save (number 4) persists `running`
again and its final save persists `finished` — the stored status moves away
from `canceled`. -/
theorem c5_resurrection :
    goodSnap3.status = JobStatus.running ∧
    (cancelView goodSnap3).2 = true ∧
    (cancelView goodSnap3).1.status = JobStatus.canceled ∧
    goodSnap4.status = JobStatus.running ∧
    goodRun.task.status = JobStatus.finished := by
  refine ⟨by decide, by decide, by decide, by decide, by decide⟩

/-! ## C6 counterexample -/

set_option maxRecDepth 8000 in
/-- C6 counterexample: two terminal situations violate "exactly one of
{result, error_message} is non-null once terminal". (1) Cancelling a freshly
created (pending) job yields the terminal status `canceled` with `result` and
`error_message` both null. (2) No transition ever clears the opposite field
(the success save of lines 342-346 writes only result/status/stage/progress),
so re-invoking a previously failed row under an environment in which
everything succeeds ends `finished` with the fresh `result` and the stale
`error_message` both non-null. -/
theorem c6_invariant_violations :
    ((cancelView freshTask).1.status = JobStatus.canceled ∧
      (cancelView freshTask).1.result = none ∧
      (cancelView freshTask).1.errorMessage = none) ∧
    ((runInvocation staleFailedTask [] goodEnv).task.status = JobStatus.finished ∧
      (runInvocation staleFailedTask [] goodEnv).task.result.isSome = true ∧
      (runInvocation staleFailedTask [] goodEnv).task.errorMessage =
        some "Failed to search OpenAlex: timeout") := by
  refine ⟨⟨by decide, by decide, by decide⟩, by decide, by decide, by decide⟩

/-! ## C9: submission cap -/

/-- C9 amended: the litapp submission paths (`SubmitLiteratureReviewSearch.post`
and `create_literature_review_job`) enforce the cap — a user with 3 or more
pending-or-processing jobs is rejected, one with fewer gets a job created and
enqueued; the literature app's `ReviewTaskViewSet.create` performs no such
check (see the counterexample). -/
theorem c9_submission_cap (jobs : List LJobStatus) :
    (3 ≤ pendingJobsCount jobs →
      submitSearchPost jobs = SubmitResult.tooMany (pendingJobsCount jobs) ∧
      createLiteratureReviewJob jobs =
        Except.error ("Too many pending jobs (" ++ toString (pendingJobsCount jobs) ++ ")")) ∧
    (pendingJobsCount jobs < 3 →
      submitSearchPost jobs = SubmitResult.created (jobs ++ [LJobStatus.pending]) ∧
      createLiteratureReviewJob jobs = Except.ok (jobs ++ [LJobStatus.pending])) := by
  constructor
  · intro h
    constructor
    · rw [submitSearchPost, if_pos h]
    · rw [createLiteratureReviewJob, if_pos h]
  · intro h
    constructor
    · rw [submitSearchPost, if_neg (Nat.not_le.mpr h)]
    · rw [createLiteratureReviewJob, if_neg (Nat.not_le.mpr h)]

/-- The C9 cap behaviour at concrete inputs: three pending jobs are rejected
by the litapp view, an empty job list is accepted by the service. -/
theorem c9_witness :
    submitSearchPost threePendingL = SubmitResult.tooMany 3 ∧
    createLiteratureReviewJob [] = Except.ok [LJobStatus.pending] := by
  have h1 := (c9_submission_cap threePendingL).1 (by decide)
  have h2 := (c9_submission_cap []).2 (by decide)
  exact ⟨h1.1, h2.2⟩

/-- C9 counterexample: a user already owning three running review tasks still
has a new task created and enqueued with HTTP 201 by the literature app's
`ReviewTaskViewSet.create` — the cap is not enforced on this submission
path. -/
theorem c9_literature_create_no_cap :
    pendingRunningCount threeRunning = 3 ∧
    reviewTaskCreate threeRunning =
      { tasks := threeRunning ++ [freshTask], enqueued := true, httpStatus := 201 } := by
  exact ⟨by decide, rfl⟩

/-! ## C10: sentinel summaries are excluded from review generation -/

/-- C10: a paper contributes an entry to `processed_papers` only if its
summary is a non-empty string longer than 100 characters that does not
contain `"[failed]"` case-insensitively; each of the three failure sentinels
written by the summarization section fails this condition (all three are at
most 100 characters long). -/
theorem c10_sentinel_exclusion (p : Paper) (processed : List ProcEntry)
    (errs : List String) (h : (collectStep p processed errs).1 ≠ processed) :
    (∃ s, p.summary = some s ∧ s.length > 100 ∧
      strHasSub "[failed]" (pyLower s) = false) ∧
    collectCond { p with summary := some "[OpenAI API error]" } = false ∧
    collectCond { p with summary := some "[Summary failed]" } = false ∧
    collectCond { p with summary := some "[Summary too short or invalid]" } = false := by
  refine ⟨?_, rfl, rfl, rfl⟩
  rcases hcol : collectCond p with _ | _
  · exact absurd (by simp [collectStep, hcol]) h
  · rcases hs : p.summary with _ | s
    · simp [collectCond, hs] at hcol
    · refine ⟨s, rfl, ?_, ?_⟩ <;>
      · simp only [collectCond, hs] at hcol
        simp only [Bool.and_eq_true, Bool.not_eq_true', decide_eq_true_eq] at hcol
        tauto

set_option maxRecDepth 8000 in
/-- The C10 conclusion at a concrete paper with a long clean summary. -/
theorem c10_witness :
    ∃ s, paperDone.summary = some s ∧ s.length > 100 ∧
      strHasSub "[failed]" (pyLower s) = false := by
  exact (c10_sentinel_exclusion paperDone [] [] (by decide)).1

/-! ## C2: progress monotonicity -/

set_option maxRecDepth 8000 in
/-- C2 counterexample: on a resumed invocation, progress decreases while the
job is still `running`.  A two-paper job is interrupted after fully
processing its first paper (persisted progress 360/8 = 45 of 100); the
re-invocation of the same job recomputes the stage counters from zero and
skips the already-processed paper, so its first per-paper save (save number 4
of the re-invocation) still carries 45 while the immediately following
`update_task_progress` save persists 130/4 = 32.5 — two successive persisted
updates with strictly decreasing progress, both before any terminal state
(every row among the first six saves is `running`). -/
theorem c2_progress_drop_on_resume :
    c2Mid.task.status = JobStatus.running ∧
    (c2Run.snaps.getD 4 freshTask).progressPercent = ⟨360, 8⟩ ∧
    (c2Run.snaps.getD 5 freshTask).progressPercent = ⟨130, 4⟩ ∧
    ((c2Run.snaps.take 6).all (fun s => s.status == JobStatus.running)) = true ∧
    (c2Run.snaps.getD 5 freshTask).progressPercent.toRat <
      (c2Run.snaps.getD 4 freshTask).progressPercent.toRat := by
    refine ⟨by decide, by decide, by decide, by decide, ?_⟩
    rw [show (c2Run.snaps.getD 4 freshTask).progressPercent = ⟨360, 8⟩ from by decide,
      show (c2Run.snaps.getD 5 freshTask).progressPercent = ⟨130, 4⟩ from by decide]
    rw [PyFloat.toRat, PyFloat.toRat]
    norm_num

/-! ## C8: document fetcher -/

theorem find_key_append (l : List (String × Nat)) (p : String) (n : Nat)
    (h : ∀ e ∈ l, (e.1 == p) = false) :
    (l ++ [(p, n)]).find? (fun e => e.1 == p) = some (p, n) := by
  induction l with
  | nil => simp [List.find?]
  | cons e l ih =>
    have he := h e (List.mem_cons_self e l)
    rw [List.cons_append, List.find?_cons_of_neg _ (by simp [he])]
    exact ih (fun x hx => h x (List.mem_cons_of_mem _ hx))

/-- After writing `n` bytes at `p`, the cache lookup at `p` yields `n`. -/
theorem fsGet_fsSet (fs : Fs) (p : String) (n : Nat) :
    fsGet (fsSet fs p n) p = some n := by
  unfold fsGet fsSet
  rw [find_key_append]
  · rfl
  · intro e he
    unfold fsDel at he
    have := List.of_mem_filter he
    simpa using this

/-- A response within the size ceiling is written to the cache path. -/
theorem dlFetch_ok (cp : String) (fs : Fs) (r : NetResp) (h : underLimit r = true) :
    dlFetch cp fs (Except.ok r) = ⟨some cp, fsSet fs cp r.bodyLen, true⟩ := by
  unfold underLimit at h
  rcases hc : r.contentLength with _ | m
  · simp only [dlFetch, hc]
  · rw [hc] at h
    simp only [decide_eq_true_eq] at h
    simp only [dlFetch, hc]
    rw [if_neg (by omega)]

/-- A valid url whose cached artifact exceeds 1 KB is served from the cache:
no network request, cache unchanged. -/
theorem downloadPdf_cached (hash : String → String) (u : UrlParts) (fs : Fs)
    (net : Except String NetResp) (hv : isValidPdfUrl u = true)
    (h : ∃ m, fsGet fs (getPdfCachePath hash u.raw) = some m ∧ 1024 < m) :
    downloadPdf hash u fs net = ⟨some (getPdfCachePath hash u.raw), fs, false⟩ := by
  obtain ⟨m, hm, hgt⟩ := h
  unfold downloadPdf
  rw [hv]
  simp only [Bool.not_true, Bool.false_eq_true, if_false]
  simp only [hm]
  rw [if_pos hgt]

/-- C8 amended: the fetcher deduplicates by the content-addressable cache path
derived from hashing the source url — a second fetch of a url whose cached
artifact is larger than 1 KB is served from the cache with no network request
(a smaller cached artifact is treated as corrupt, removed, and re-downloaded:
see the counterexample); a non-HTTP(S) url yields `None` ("unavailable") with
no network request and no cache change; a response declaring a content length
above 50 MB is rejected before anything is committed to storage. -/
theorem c8_fetcher_cache_guards (hash : String → String) (u : UrlParts) (fs : Fs)
    (net net2 : Except String NetResp) (r : NetResp) (n : Nat) :
    (u.scheme ≠ "http" → u.scheme ≠ "https" →
      downloadPdf hash u fs net = ⟨none, fs, false⟩) ∧
    (isValidPdfUrl u = true → fsGet fs (getPdfCachePath hash u.raw) = none →
      net = Except.ok r → r.contentLength = some n → 52428800 < n →
      downloadPdf hash u fs net = ⟨none, fs, true⟩) ∧
    (isValidPdfUrl u = true → net = Except.ok r → underLimit r = true →
      1024 < r.bodyLen →
      downloadPdf hash u ((downloadPdf hash u fs net).fs) net2 =
        ⟨some (getPdfCachePath hash u.raw), (downloadPdf hash u fs net).fs, false⟩) := by
  refine ⟨?_, ?_, ?_⟩
  · intro h1 h2
    have hv : isValidPdfUrl u = false := by
      unfold isValidPdfUrl
      have e1 : (u.scheme == "http") = false := by simp [h1]
      have e2 : (u.scheme == "https") = false := by simp [h2]
      rw [e1, e2]
      simp
    unfold downloadPdf
    rw [hv]
    rfl
  · intro hv hcache hnet hcl hn
    unfold downloadPdf
    rw [hv]
    simp only [Bool.not_true, Bool.false_eq_true, if_false]
    rw [hcache, hnet]
    simp only [dlFetch, hcl]
    rw [if_pos (by omega)]
  · intro hv hnet hlim hbody
    subst hnet
    have hkey : ∃ m, fsGet ((downloadPdf hash u fs (Except.ok r)).fs)
        (getPdfCachePath hash u.raw) = some m ∧ 1024 < m := by
      unfold downloadPdf
      rw [hv]
      simp only [Bool.not_true, Bool.false_eq_true, if_false]
      rcases hcache : fsGet fs (getPdfCachePath hash u.raw) with _ | sz
      · simp only [hcache, dlFetch_ok _ _ _ hlim, fsGet_fsSet]
        exact ⟨r.bodyLen, rfl, hbody⟩
      · by_cases hsz : sz > 1024
        · simp only [hcache, if_pos hsz]
          exact ⟨sz, rfl, hsz⟩
        · simp only [hcache, if_neg hsz, dlFetch_ok _ _ _ hlim, fsGet_fsSet]
          exact ⟨r.bodyLen, rfl, hbody⟩
    exact downloadPdf_cached hash u _ net2 hv hkey

/-- The C8 guards evaluated concretely: an ftp url is rejected untouched; an
oversize declared length is rejected with nothing stored; a second fetch after
a successful 2 MB download is served from the cache without a network call. -/
theorem c8_witness :
    downloadPdf hashW urlFtp [] (Except.ok goodResp) = ⟨none, [], false⟩ ∧
    downloadPdf hashW urlGood [] (Except.ok bigResp) = ⟨none, [], true⟩ ∧
    downloadPdf hashW urlGood ((downloadPdf hashW urlGood [] (Except.ok goodResp)).fs)
        (Except.error "offline") =
      ⟨some (getPdfCachePath hashW urlGood.raw),
        (downloadPdf hashW urlGood [] (Except.ok goodResp)).fs, false⟩ := by
  refine ⟨?_, ?_, ?_⟩
  · exact (c8_fetcher_cache_guards hashW urlFtp [] (Except.ok goodResp)
      (Except.ok goodResp) goodResp 0).1 (by decide) (by decide)
  · exact (c8_fetcher_cache_guards hashW urlGood [] (Except.ok bigResp)
      (Except.ok bigResp) bigResp 62914560).2.1 (by decide) (by decide) rfl (by decide)
      (by decide)
  · exact (c8_fetcher_cache_guards hashW urlGood [] (Except.ok goodResp)
      (Except.error "offline") goodResp 0).2.2 (by decide) rfl (by decide) (by decide)

/-- C8 counterexample: the first fetch succeeds but stores only a 500-byte
body; the second fetch of the same url finds the cached file not larger than
1 KB, removes it as corrupt, and issues a fresh network request — so a second
fetch of an already-fetched url does re-download. -/
theorem c8_small_cache_redownload :
    c8Dl1.path = some cachePathW ∧
    fsGet c8Dl1.fs cachePathW = some 500 ∧
    c8Dl2.netCalled = true := by
  refine ⟨by decide, by decide, by decide⟩

/-! ## C1: idempotent resume guards -/

theorem dlStep_calls (pe : PaperEnv) (p : Paper) (tbl : List Paper) (dc : Nat)
    (errs : List String) (calls : List ExtCall) :
    (dlStep pe p tbl dc errs calls).calls =
      calls ++ (if truthy p.pdfUrl && !truthy p.pdfPath then [ExtCall.fetchPdf] else []) := by
  unfold dlStep
  rcases h : (truthy p.pdfUrl && !truthy p.pdfPath) with _ | _
  · simp
  · rcases hdl : pe.dl with e | cr
    · simp [hdl]
    · simp only [hdl, if_true]
      split <;> simp

theorem dlStep_skip (pe : PaperEnv) (p : Paper) (tbl : List Paper) (dc : Nat)
    (errs : List String) (calls : List ExtCall)
    (h : (truthy p.pdfUrl && !truthy p.pdfPath) = false) :
    dlStep pe p tbl dc errs calls = ⟨p, tbl, dc, errs, calls⟩ := by
  unfold dlStep
  rw [h]
  rfl

theorem dlStep_fields (pe : PaperEnv) (p : Paper) (tbl : List Paper) (dc : Nat)
    (errs : List String) (calls : List ExtCall) :
    (dlStep pe p tbl dc errs calls).paper.extractedText = p.extractedText ∧
    (dlStep pe p tbl dc errs calls).paper.summary = p.summary := by
  unfold dlStep
  simp only []
  repeat' split
  all_goals exact ⟨rfl, rfl⟩

theorem extStep_calls (pe : PaperEnv) (t : ReviewTask) (p : Paper) (tbl : List Paper)
    (ec : Nat) (errs : List String) (calls : List ExtCall) :
    (extStep pe t p tbl ec errs calls).calls =
      calls ++ (if truthy p.pdfPath && !truthy p.extractedText then [ExtCall.openPdf] else []) := by
  unfold extStep
  rcases h : (truthy p.pdfPath && !truthy p.extractedText) with _ | _
  · simp
  · rcases hx : pe.ext with e | text
    · simp [hx]
    · simp only [hx, if_true]
      split <;> simp

theorem extStep_skip (pe : PaperEnv) (t : ReviewTask) (p : Paper) (tbl : List Paper)
    (ec : Nat) (errs : List String) (calls : List ExtCall)
    (h : (truthy p.pdfPath && !truthy p.extractedText) = false) :
    extStep pe t p tbl ec errs calls = ⟨t, p, tbl, ec, errs, calls, []⟩ := by
  unfold extStep
  rw [h]
  rfl

theorem extStep_fields (pe : PaperEnv) (t : ReviewTask) (p : Paper) (tbl : List Paper)
    (ec : Nat) (errs : List String) (calls : List ExtCall) :
    (extStep pe t p tbl ec errs calls).paper.pdfPath = p.pdfPath ∧
    (extStep pe t p tbl ec errs calls).paper.summary = p.summary := by
  unfold extStep
  simp only []
  repeat' split
  all_goals exact ⟨rfl, rfl⟩

theorem summStep_calls (pe : PaperEnv) (t : ReviewTask) (p : Paper) (tbl : List Paper)
    (sc : Nat) (errs : List String) (calls : List ExtCall) :
    (summStep pe t p tbl sc errs calls).calls =
      calls ++ (if truthy p.extractedText && !truthy p.summary then [ExtCall.chatSumm] else []) := by
  unfold summStep
  rcases h : (truthy p.extractedText && !truthy p.summary) with _ | _
  · simp
  · rcases hs : pe.summ with content | e | e
    · simp only [hs, if_true]
      split <;> simp
    · simp [hs]
    · simp [hs]

theorem summStep_skip (pe : PaperEnv) (t : ReviewTask) (p : Paper) (tbl : List Paper)
    (sc : Nat) (errs : List String) (calls : List ExtCall)
    (h : (truthy p.extractedText && !truthy p.summary) = false) :
    summStep pe t p tbl sc errs calls = ⟨t, p, tbl, sc, errs, calls, []⟩ := by
  unfold summStep
  rw [h]
  rfl

theorem summStep_fields (pe : PaperEnv) (t : ReviewTask) (p : Paper) (tbl : List Paper)
    (sc : Nat) (errs : List String) (calls : List ExtCall) :
    (summStep pe t p tbl sc errs calls).paper.pdfPath = p.pdfPath ∧
    (summStep pe t p tbl sc errs calls).paper.extractedText = p.extractedText := by
  unfold summStep
  simp only []
  repeat' split
  all_goals exact ⟨rfl, rfl⟩

theorem metaUpdate_fields (p : Paper) (pd : PaperData) :
    (metaUpdate p pd).pdfPath = p.pdfPath ∧
    (metaUpdate p pd).extractedText = p.extractedText ∧
    (metaUpdate p pd).summary = p.summary :=
  ⟨rfl, rfl, rfl⟩

theorem processPdf_done (hash : String → String) (lp : LPaper) (fs : Fs)
    (net : Except String NetResp) (pageText : String) (u : UrlParts)
    (hurl : lp.pdfUrl = some u) (ht : truthy lp.text = true)
    (hc : truthy lp.cachedFile = true) :
    processPdfAndExtractText hash lp fs net pageText = (lp, fs, true, false) := by
  unfold processPdfAndExtractText
  simp only [hurl, ht, hc]
  rfl

/-- C1: idempotent resume.  In each loop iteration of `generate_review_task`:
the pdf request happens exactly when the paper has a (truthy) file url and no
stored file path, the extraction call exactly when it has a file path and no
extracted text, the summarization call exactly when it has extracted text and
no summary; when a guard fails the section changes nothing at all (so a
populated field is never overwritten, and a second invocation does not redo
completed work); no section or metadata refresh touches another section's
field; and litapp's `process_pdf_and_extract_text` returns an
already-processed paper unchanged without invoking the downloader. -/
theorem c1_idempotent_resume_guards (pe : PaperEnv) (t : ReviewTask) (p : Paper)
    (tbl : List Paper) (dc ec sc : Nat) (errs : List String) (calls : List ExtCall)
    (hash : String → String) (lp : LPaper) (fs : Fs) (net : Except String NetResp)
    (pageText : String) :
    ((dlStep pe p tbl dc errs calls).calls =
      calls ++ (if truthy p.pdfUrl && !truthy p.pdfPath then [ExtCall.fetchPdf] else [])) ∧
    ((extStep pe t p tbl ec errs calls).calls =
      calls ++ (if truthy p.pdfPath && !truthy p.extractedText then [ExtCall.openPdf] else [])) ∧
    ((summStep pe t p tbl sc errs calls).calls =
      calls ++ (if truthy p.extractedText && !truthy p.summary then [ExtCall.chatSumm] else [])) ∧
    ((truthy p.pdfUrl && !truthy p.pdfPath) = false →
      dlStep pe p tbl dc errs calls = ⟨p, tbl, dc, errs, calls⟩) ∧
    ((truthy p.pdfPath && !truthy p.extractedText) = false →
      extStep pe t p tbl ec errs calls = ⟨t, p, tbl, ec, errs, calls, []⟩) ∧
    ((truthy p.extractedText && !truthy p.summary) = false →
      summStep pe t p tbl sc errs calls = ⟨t, p, tbl, sc, errs, calls, []⟩) ∧
    ((dlStep pe p tbl dc errs calls).paper.extractedText = p.extractedText ∧
      (dlStep pe p tbl dc errs calls).paper.summary = p.summary) ∧
    ((extStep pe t p tbl ec errs calls).paper.pdfPath = p.pdfPath ∧
      (extStep pe t p tbl ec errs calls).paper.summary = p.summary) ∧
    ((summStep pe t p tbl sc errs calls).paper.pdfPath = p.pdfPath ∧
      (summStep pe t p tbl sc errs calls).paper.extractedText = p.extractedText) ∧
    ((metaUpdate p pe.pData).pdfPath = p.pdfPath ∧
      (metaUpdate p pe.pData).extractedText = p.extractedText ∧
      (metaUpdate p pe.pData).summary = p.summary) ∧
    (∀ u : UrlParts, lp.pdfUrl = some u → truthy lp.text = true →
      truthy lp.cachedFile = true →
      processPdfAndExtractText hash lp fs net pageText = (lp, fs, true, false)) :=
  ⟨dlStep_calls pe p tbl dc errs calls,
    extStep_calls pe t p tbl ec errs calls,
    summStep_calls pe t p tbl sc errs calls,
    dlStep_skip pe p tbl dc errs calls,
    extStep_skip pe t p tbl ec errs calls,
    summStep_skip pe t p tbl sc errs calls,
    dlStep_fields pe p tbl dc errs calls,
    extStep_fields pe t p tbl ec errs calls,
    summStep_fields pe t p tbl sc errs calls,
    metaUpdate_fields p pe.pData,
    fun u hu ht hc => processPdf_done hash lp fs net pageText u hu ht hc⟩

set_option maxRecDepth 2000 in
/-- The C1 skip behaviour at a fully processed paper: every section leaves
the paper, table, counters, errors and calls unchanged, and litapp returns
the processed paper without downloading. -/
theorem c1_witness :
    dlStep peGood paperDone [] 0 [] [] = ⟨paperDone, [], 0, [], []⟩ ∧
    extStep peGood freshTask paperDone [] 0 [] [] =
      ⟨freshTask, paperDone, [], 0, [], [], []⟩ ∧
    summStep peGood freshTask paperDone [] 0 [] [] =
      ⟨freshTask, paperDone, [], 0, [], [], []⟩ ∧
    processPdfAndExtractText hashW lpDone [] (Except.error "offline") "x" =
      (lpDone, [], true, false) := by
  have h := c1_idempotent_resume_guards peGood freshTask paperDone [] 0 0 0 [] []
    hashW lpDone [] (Except.error "offline") "x"
  exact ⟨h.2.2.2.1 (by decide), h.2.2.2.2.1 (by decide), h.2.2.2.2.2.1 (by decide),
    h.2.2.2.2.2.2.2.2.2.2 urlGood rfl (by decide) (by decide)⟩

/-! ## C4: partial failure policy -/

theorem strToList_append (a b : String) : (a ++ b).toList = a.toList ++ b.toList := rfl

theorem sanitizeText_append (a b : String) :
    sanitizeText (a ++ b) = sanitizeText a ++ sanitizeText b := by
  unfold sanitizeText
  show String.mk ((a.toList ++ b.toList).filter _) = _
  rw [List.filter_append]
  rfl

theorem listStarts_refl_append (n b : List Char) : listStarts n (n ++ b) = true := by
  induction n with
  | nil => rfl
  | cons c cs ih => simp [listStarts, ih]

theorem listStarts_append_of (n : List Char) (a b : List Char)
    (h : listStarts n a = true) : listStarts n (a ++ b) = true := by
  induction n generalizing a with
  | nil => rfl
  | cons c cs ih =>
    cases a with
    | nil => cases h
    | cons d ds =>
      simp only [listStarts, Bool.and_eq_true] at h
      simp only [List.cons_append, listStarts, Bool.and_eq_true]
      exact ⟨h.1, ih ds h.2⟩

theorem listHasSub_of_starts (n h : List Char) (hs : listStarts n h = true) :
    listHasSub n h = true := by
  cases h with
  | nil =>
    cases n with
    | nil => rfl
    | cons c cs => cases hs
  | cons c cs => simp [listHasSub, hs]

theorem listHasSub_append (x n y : List Char) :
    listHasSub n (x ++ (n ++ y)) = true := by
  induction x with
  | nil =>
    rcases hn : n with _ | ⟨c, cs⟩
    · rcases y with _ | ⟨d, ds⟩
      · rfl
      · simp [listHasSub, listStarts]
    · simp only [List.nil_append]
      exact listHasSub_of_starts _ _ (by rw [← hn]; exact listStarts_refl_append n y)
  | cons c x ih => simp [listHasSub, ih]

/-- The persisted "no papers" error summary always carries the descriptive
phrase. -/
theorem errorSummaryMsg_descr (dc ec sc found : Nat) (errs : List String) :
    strHasSub "No papers could be successfully processed"
      (errorSummaryMsg dc ec sc found errs) = true := by
  unfold errorSummaryMsg strHasSub
  split <;>
  · apply listHasSub_of_starts
    simp only [strToList_append, List.append_assoc]
    rw [← List.append_assoc]
    apply listStarts_append_of
    repeat' apply listStarts_append_of
    decide

set_option maxRecDepth 2000 in
/-- A sanitized review text shorter than 3000 words carries the under-length
notice. -/
theorem lengthNote_in_finalReview (g : String) (np nf ne : Nat)
    (h : wordCount g < 3000) :
    strHasSub lengthNote (sanitizeText (finalReview g np nf ne)) = true := by
  have hclean : sanitizeText lengthNote = lengthNote := by rfl
  unfold finalReview
  rw [if_pos h]
  rcases hne : ne with _ | m
  · subst hne
    rw [if_pos rfl, sanitizeText_append, hclean]
    unfold strHasSub
    simpa using listHasSub_append (sanitizeText g).toList lengthNote.toList []
  · rw [if_neg (by omega)]
    simp only [sanitizeText_append, hclean]
    unfold strHasSub
    simp only [strToList_append, List.append_assoc]
    exact listHasSub_append _ _ _

theorem finishJob_keeps (ls : LoopState) (pes : List PaperEnv)
    (gen : Except String String) :
    (finishJob ls pes gen).processed = ls.processed ∧
    (finishJob ls pes gen).dc = ls.dc ∧
    (finishJob ls pes gen).ec = ls.ec ∧
    (finishJob ls pes gen).sc = ls.sc ∧
    (finishJob ls pes gen).errors = ls.errors := by
  unfold finishJob
  simp only []
  repeat' split
  all_goals exact ⟨rfl, rfl, rfl, rfl, rfl⟩

theorem finishJob_empty (ls : LoopState) (pes : List PaperEnv)
    (gen : Except String String) (h : ls.processed.isEmpty = true) :
    (finishJob ls pes gen).task.status = JobStatus.failed ∧
    (finishJob ls pes gen).task.errorMessage =
      some (errorSummaryMsg ls.dc ls.ec ls.sc pes.length ls.errors) := by
  unfold finishJob
  rw [h]
  exact ⟨rfl, rfl⟩

theorem finishJob_ok (ls : LoopState) (pes : List PaperEnv) (g : String)
    (h : ls.processed.isEmpty = false) :
    (finishJob ls pes (Except.ok g)).task.status = JobStatus.finished ∧
    (finishJob ls pes (Except.ok g)).task.result =
      some (sanitizeText (finalReview (pyStrip g) ls.processed.length pes.length
        ls.errors.length)) := by
  unfold finishJob
  rw [h]
  exact ⟨rfl, rfl⟩

/-- C4: after per-document processing, an empty collected set is the single
path by which per-document attrition fails the job — the job then fails with
the "no papers could be successfully processed" error summary; otherwise
(when the final generation call succeeds) the job reaches `finished` built
from the collected subset, and a review below the 3000-word minimum gets the
explicit partial-result notice appended to the stored result instead of
being treated as a failure. -/
theorem c4_partial_failure_policy (t0 : ReviewTask) (tbl : List Paper) (env : RunEnv)
    (pes : List PaperEnv) (hs : env.search = Except.ok pes) (hne : pes.isEmpty = false) :
    ((runInvocation t0 tbl env).processed = [] →
      (runInvocation t0 tbl env).task.status = JobStatus.failed ∧
      (runInvocation t0 tbl env).task.errorMessage =
        some (errorSummaryMsg (runInvocation t0 tbl env).dc (runInvocation t0 tbl env).ec
          (runInvocation t0 tbl env).sc pes.length (runInvocation t0 tbl env).errors) ∧
      strHasSub "No papers could be successfully processed"
        ((runInvocation t0 tbl env).task.errorMessage.getD "") = true) ∧
    (∀ g, env.gen = Except.ok g → (runInvocation t0 tbl env).processed ≠ [] →
      (runInvocation t0 tbl env).task.status = JobStatus.finished ∧
      (runInvocation t0 tbl env).task.result =
        some (sanitizeText (finalReview (pyStrip g)
          (runInvocation t0 tbl env).processed.length pes.length
          (runInvocation t0 tbl env).errors.length))) ∧
    (∀ g, wordCount (pyStrip g) < 3000 →
      strHasSub lengthNote (sanitizeText (finalReview (pyStrip g)
        (runInvocation t0 tbl env).processed.length pes.length
        (runInvocation t0 tbl env).errors.length)) = true) := by
  have hrun : runInvocation t0 tbl env =
      finishJob ((pes.take 30).foldl loopStep (preludeState (startTask t0) tbl pes))
        pes env.gen := by
    unfold runInvocation
    simp only [hs]
    rw [hne]
    simp
  set ls := (pes.take 30).foldl loopStep (preludeState (startTask t0) tbl pes) with hls
  have hkeep := finishJob_keeps ls pes env.gen
  refine ⟨?_, ?_, ?_⟩
  · intro hp
    rw [hrun] at hp ⊢
    have hempty : ls.processed.isEmpty = true := by
      rw [← hkeep.1, hp]
      rfl
    have he := finishJob_empty ls pes env.gen hempty
    rw [hkeep.2.1, hkeep.2.2.1, hkeep.2.2.2.1, hkeep.2.2.2.2]
    refine ⟨he.1, he.2, ?_⟩
    rw [he.2]
    exact errorSummaryMsg_descr _ _ _ _ _
  · intro g hg hp
    rw [hrun] at hp ⊢
    rw [hg] at hp ⊢
    have hempty : ls.processed.isEmpty = false := by
      rcases hq : ls.processed.isEmpty with _ | _
      · rfl
      · exfalso
        apply hp
        rw [(finishJob_keeps ls pes (Except.ok g)).1]
        exact List.isEmpty_iff.mp hq
    have ho := finishJob_ok ls pes g hempty
    rw [(finishJob_keeps ls pes (Except.ok g)).1,
      (finishJob_keeps ls pes (Except.ok g)).2.2.2.2]
    exact ⟨ho.1, ho.2⟩
  · intro g hwc
    exact lengthNote_in_finalReview (pyStrip g) _ _ _ hwc

set_option maxRecDepth 8000 in
/-- The C4 branches at concrete runs: the all-fail one-paper job fails with
the descriptive error summary; the successful one-paper job finishes with the
under-length notice in its stored result. -/
theorem c4_witness :
    (runInvocation freshTask [] allFailEnv).task.status = JobStatus.failed ∧
    strHasSub "No papers could be successfully processed"
      ((runInvocation freshTask [] allFailEnv).task.errorMessage.getD "") = true ∧
    (runInvocation freshTask [] goodEnv).task.status = JobStatus.finished ∧
    strHasSub lengthNote (sanitizeText (finalReview (pyStrip "w")
      (runInvocation freshTask [] goodEnv).processed.length 1
      (runInvocation freshTask [] goodEnv).errors.length)) = true := by
  have h1 := c4_partial_failure_policy freshTask [] allFailEnv [peBadDl] rfl (by decide)
  have h2 := c4_partial_failure_policy freshTask [] goodEnv [peGood] rfl (by decide)
  have e1 := h1.1 (by decide)
  refine ⟨e1.1, e1.2.2, (h2.2.1 "w" rfl (by decide)).1, h2.2.2 "w" (by decide)⟩

/-! ## C2 and C6 machinery: what each step does to the task row -/

theorem updateStep_taskFields (t : ReviewTask) :
    (updateTaskProgressStep t).1.status = t.status ∧
    (updateTaskProgressStep t).1.currentStage = t.currentStage ∧
    (updateTaskProgressStep t).1.papersFound = t.papersFound ∧
    (updateTaskProgressStep t).1.totalPapersTarget = t.totalPapersTarget ∧
    (updateTaskProgressStep t).1.papersDownloaded = t.papersDownloaded ∧
    (updateTaskProgressStep t).1.papersExtracted = t.papersExtracted ∧
    (updateTaskProgressStep t).1.papersSummarized = t.papersSummarized ∧
    (updateTaskProgressStep t).1.result = t.result ∧
    (updateTaskProgressStep t).1.errorMessage = t.errorMessage ∧
    (updateTaskProgressStep t).1.paperIds = t.paperIds := by
  unfold updateTaskProgressStep
  simp only []
  split
  all_goals exact ⟨rfl, rfl, rfl, rfl, rfl, rfl, rfl, rfl, rfl, rfl⟩

theorem updateStep_snaps (t : ReviewTask) (h : t.totalPapersTarget ≠ 0) :
    (updateTaskProgressStep t).2 = [(updateTaskProgressStep t).1] := by
  unfold updateTaskProgressStep
  rw [if_neg h]

theorem extStep_task (pe : PaperEnv) (t : ReviewTask) (p : Paper) (tbl : List Paper)
    (ec : Nat) (errs : List String) (calls : List ExtCall) :
    ((extStep pe t p tbl ec errs calls).task = t ∧
      (extStep pe t p tbl ec errs calls).snaps = []) ∨
    ((extStep pe t p tbl ec errs calls).task =
        { t with currentStage := some JobStage.extractingText } ∧
      (extStep pe t p tbl ec errs calls).snaps =
        [(extStep pe t p tbl ec errs calls).task]) := by
  unfold extStep
  simp only []
  repeat' split
  all_goals first | exact Or.inl ⟨rfl, rfl⟩ | exact Or.inr ⟨rfl, rfl⟩

theorem summStep_task (pe : PaperEnv) (t : ReviewTask) (p : Paper) (tbl : List Paper)
    (sc : Nat) (errs : List String) (calls : List ExtCall) :
    ((summStep pe t p tbl sc errs calls).task = t ∧
      (summStep pe t p tbl sc errs calls).snaps = []) ∨
    ((summStep pe t p tbl sc errs calls).task =
        { t with currentStage := some JobStage.summarizingPapers } ∧
      (summStep pe t p tbl sc errs calls).snaps =
        [(summStep pe t p tbl sc errs calls).task]) := by
  unfold summStep
  simp only []
  repeat' split
  all_goals first | exact Or.inl ⟨rfl, rfl⟩ | exact Or.inr ⟨rfl, rfl⟩

theorem dlStep_dc_ge (pe : PaperEnv) (p : Paper) (tbl : List Paper) (dc : Nat)
    (errs : List String) (calls : List ExtCall) :
    dc ≤ (dlStep pe p tbl dc errs calls).dc := by
  unfold dlStep
  simp only []
  repeat' split
  all_goals first | exact Nat.le_refl _ | exact Nat.le_succ _

theorem extStep_ec_ge (pe : PaperEnv) (t : ReviewTask) (p : Paper) (tbl : List Paper)
    (ec : Nat) (errs : List String) (calls : List ExtCall) :
    ec ≤ (extStep pe t p tbl ec errs calls).ec := by
  unfold extStep
  simp only []
  repeat' split
  all_goals first | exact Nat.le_refl _ | exact Nat.le_succ _

theorem summStep_sc_ge (pe : PaperEnv) (t : ReviewTask) (p : Paper) (tbl : List Paper)
    (sc : Nat) (errs : List String) (calls : List ExtCall) :
    sc ≤ (summStep pe t p tbl sc errs calls).sc := by
  unfold summStep
  simp only []
  repeat' split
  all_goals first | exact Nat.le_refl _ | exact Nat.le_succ _

theorem progValQ_stage (t : ReviewTask) (stg : Option JobStage)
    (h : t.currentStage ≠ some JobStage.generatingReview)
    (h2 : stg ≠ some JobStage.generatingReview) :
    progValQ { t with currentStage := stg } = progValQ t := by
  unfold progValQ
  rw [if_neg h2, if_neg h]

theorem SnapMeta.push {snaps : List ReviewTask} {lastP : ℚ} (t : ReviewTask)
    (h : SnapMeta snaps lastP) (hle : lastP ≤ t.progressPercent.toRat)
    (hs : t.status ≠ JobStatus.finished) (h99 : t.progressPercent.toRat ≤ 99) :
    SnapMeta (snaps ++ [t]) t.progressPercent.toRat := by
  constructor
  · rw [List.map_append, List.chain'_append]
    refine ⟨h.chain, List.chain'_singleton _, ?_⟩
    intro x hx y hy
    rw [h.lastEq] at hx
    simp only [List.map_cons, List.map_nil, List.head?_cons, Option.mem_def,
      Option.some_inj] at hx hy
    rw [← hx, ← hy]
    exact hle
  · rw [List.map_append]
    simp [List.getLast?_append]
  · intro s hs'
    rcases List.mem_append.mp hs' with h1 | h1
    · exact h.ok s h1
    · rw [List.mem_singleton.mp h1]
      exact ⟨hs, h99⟩

theorem SnapMeta.pushEq {snaps : List ReviewTask} {lastP : ℚ} (t : ReviewTask)
    (h : SnapMeta snaps lastP) (hv : t.progressPercent.toRat = lastP)
    (hs : t.status ≠ JobStatus.finished) (h99 : lastP ≤ 99) :
    SnapMeta (snaps ++ [t]) lastP := by
  have hp := h.push t (le_of_eq hv.symm) hs (by rw [hv]; exact h99)
  rwa [hv] at hp

theorem jstatus_run_ne_fin : JobStatus.running ≠ JobStatus.finished := by decide

theorem progValQ_congr (t t' : ReviewTask)
    (h1 : t.papersFound = t'.papersFound)
    (h2 : t.totalPapersTarget = t'.totalPapersTarget)
    (h3 : t.papersDownloaded = t'.papersDownloaded)
    (h4 : t.papersExtracted = t'.papersExtracted)
    (h5 : t.papersSummarized = t'.papersSummarized)
    (h6 : t.currentStage = t'.currentStage) :
    progValQ t = progValQ t' := by
  unfold progValQ creditTermQ
  rw [h1, h2, h3, h4, h5, h6]

theorem SnapMeta.pushStage {snaps : List ReviewTask} {lastP : ℚ}
    (δ : List ReviewTask) (tsk : ReviewTask) (h : SnapMeta snaps lastP)
    (hδ : δ = [] ∨ (δ = [tsk] ∧ tsk.progressPercent.toRat = lastP ∧
      tsk.status = JobStatus.running))
    (h99 : lastP ≤ 99) :
    SnapMeta (snaps ++ δ) lastP := by
  rcases hδ with rfl | ⟨rfl, hv, hst⟩
  · simpa using h
  · exact h.pushEq tsk hv (by rw [hst]; exact jstatus_run_ne_fin) h99

/-- One loop iteration preserves the trace invariant. -/
theorem loopStep_traceInv (ls : LoopState) (pe : PaperEnv) (h : TraceInv ls) :
    TraceInv (loopStep ls pe) := by
  obtain ⟨meta, hrun, hng, hdc, hec, hsc, htar, hprog, hden⟩ := h
  set p1 := metaUpdate (getOrCreatePaper ls.table pe.pData).1 pe.pData with hp1
  set d := dlStep pe p1 (tableSet (getOrCreatePaper ls.table pe.pData).2 p1)
    ls.dc ls.errors ls.calls with hd
  set t0 : ReviewTask := { ls.task with paperIds := addId ls.task.paperIds p1.openalexId }
    with ht0
  set t1 : ReviewTask := { t0 with papersDownloaded := d.dc } with ht1
  set u1 := updateTaskProgressStep t1 with hu1
  set e := extStep pe u1.1 d.paper d.table ls.ec d.errors d.calls with he
  set t2 : ReviewTask := { e.task with papersExtracted := e.ec } with ht2
  set u2 := updateTaskProgressStep t2 with hu2
  set s := summStep pe u2.1 e.paper e.table ls.sc e.errors e.calls with hs
  set t3 : ReviewTask := { s.task with papersSummarized := s.sc } with ht3
  set u3 := updateTaskProgressStep t3 with hu3
  have hstep : loopStep ls pe =
      { task := u3.1, table := s.table, dc := d.dc, ec := e.ec, sc := s.sc,
        processed := (collectStep s.paper ls.processed s.errors).1,
        errors := (collectStep s.paper ls.processed s.errors).2, calls := s.calls,
        snaps := ls.snaps ++ ([t1] ++ u1.2 ++ e.snaps ++ [t2] ++ u2.2 ++ s.snaps
          ++ [t3] ++ u3.2) } := rfl
  obtain ⟨u1_stat, u1_stage, u1_found, u1_tar, u1_dc, u1_ec, u1_sc, u1_res, u1_err, u1_ids⟩ :=
    updateStep_taskFields t1
  obtain ⟨u2_stat, u2_stage, u2_found, u2_tar, u2_dc, u2_ec, u2_sc, u2_res, u2_err, u2_ids⟩ :=
    updateStep_taskFields t2
  obtain ⟨u3_stat, u3_stage, u3_found, u3_tar, u3_dc, u3_ec, u3_sc, u3_res, u3_err, u3_ids⟩ :=
    updateStep_taskFields t3
  have hef := extStep_task pe u1.1 d.paper d.table ls.ec d.errors d.calls
  have hsf := summStep_task pe u2.1 e.paper e.table ls.sc e.errors e.calls
  -- e.task field facts
  have e_stat : e.task.status = u1.1.status := by
    rcases hef with ⟨het, _⟩ | ⟨het, _⟩ <;> rw [het]
  have e_found : e.task.papersFound = u1.1.papersFound := by
    rcases hef with ⟨het, _⟩ | ⟨het, _⟩ <;> rw [het]
  have e_tar : e.task.totalPapersTarget = u1.1.totalPapersTarget := by
    rcases hef with ⟨het, _⟩ | ⟨het, _⟩ <;> rw [het]
  have e_dc : e.task.papersDownloaded = u1.1.papersDownloaded := by
    rcases hef with ⟨het, _⟩ | ⟨het, _⟩ <;> rw [het]
  have e_ec : e.task.papersExtracted = u1.1.papersExtracted := by
    rcases hef with ⟨het, _⟩ | ⟨het, _⟩ <;> rw [het]
  have e_sc : e.task.papersSummarized = u1.1.papersSummarized := by
    rcases hef with ⟨het, _⟩ | ⟨het, _⟩ <;> rw [het]
  have e_prog : e.task.progressPercent = u1.1.progressPercent := by
    rcases hef with ⟨het, _⟩ | ⟨het, _⟩ <;> rw [het]
  have t1_stage : t1.currentStage = ls.task.currentStage := rfl
  have e_sng : e.task.currentStage ≠ some JobStage.generatingReview := by
    rcases hef with ⟨het, _⟩ | ⟨het, _⟩ <;> rw [het]
    · rw [u1_stage, t1_stage]
      exact hng
    · show some JobStage.extractingText ≠ some JobStage.generatingReview
      decide
  have s_stat : s.task.status = u2.1.status := by
    rcases hsf with ⟨hst, _⟩ | ⟨hst, _⟩ <;> rw [hst]
  have s_found : s.task.papersFound = u2.1.papersFound := by
    rcases hsf with ⟨hst, _⟩ | ⟨hst, _⟩ <;> rw [hst]
  have s_tar : s.task.totalPapersTarget = u2.1.totalPapersTarget := by
    rcases hsf with ⟨hst, _⟩ | ⟨hst, _⟩ <;> rw [hst]
  have s_dc : s.task.papersDownloaded = u2.1.papersDownloaded := by
    rcases hsf with ⟨hst, _⟩ | ⟨hst, _⟩ <;> rw [hst]
  have s_ec : s.task.papersExtracted = u2.1.papersExtracted := by
    rcases hsf with ⟨hst, _⟩ | ⟨hst, _⟩ <;> rw [hst]
  have s_sc : s.task.papersSummarized = u2.1.papersSummarized := by
    rcases hsf with ⟨hst, _⟩ | ⟨hst, _⟩ <;> rw [hst]
  have s_prog : s.task.progressPercent = u2.1.progressPercent := by
    rcases hsf with ⟨hst, _⟩ | ⟨hst, _⟩ <;> rw [hst]
  have t2_stage_src : t2.currentStage = e.task.currentStage := rfl
  have s_sng : s.task.currentStage ≠ some JobStage.generatingReview := by
    rcases hsf with ⟨hst, _⟩ | ⟨hst, _⟩ <;> rw [hst]
    · rw [u2_stage, t2_stage_src]
      exact e_sng
    · show some JobStage.summarizingPapers ≠ some JobStage.generatingReview
      decide
  -- positivity of targets
  have htar1 : t1.totalPapersTarget ≠ 0 := htar
  have t2_tar : t2.totalPapersTarget = t1.totalPapersTarget := by
    show e.task.totalPapersTarget = _
    rw [e_tar, u1_tar]
  have t3_tar : t3.totalPapersTarget = t2.totalPapersTarget := by
    show s.task.totalPapersTarget = _
    rw [s_tar, u2_tar]
  have htar2 : t2.totalPapersTarget ≠ 0 := by rw [t2_tar]; exact htar1
  have htar3 : t3.totalPapersTarget ≠ 0 := by rw [t3_tar]; exact htar2
  obtain ⟨u1_val, u1_den⟩ := updateStep_toRat t1 htar1
  obtain ⟨u2_val, u2_den⟩ := updateStep_toRat t2 htar2
  obtain ⟨u3_val, u3_den⟩ := updateStep_toRat t3 htar3
  -- statuses stay running
  have t1_stat : t1.status = ls.task.status := rfl
  have hrun1 : u1.1.status = JobStatus.running := by rw [u1_stat, t1_stat]; exact hrun
  have t2_stat : t2.status = e.task.status := rfl
  have hrun2 : u2.1.status = JobStatus.running := by
    rw [u2_stat, t2_stat, e_stat]; exact hrun1
  have t3_stat : t3.status = s.task.status := rfl
  have hrun3 : u3.1.status = JobStatus.running := by
    rw [u3_stat, t3_stat, s_stat]; exact hrun2
  -- progress formula monotone along the counter bumps
  have hm1 : progValQ ls.task ≤ progValQ t1 := by
    apply progValQ_mono
    · rfl
    · exact Nat.le_refl _
    · show ls.task.papersDownloaded ≤ d.dc
      rw [hdc]
      exact dlStep_dc_ge pe p1 _ ls.dc ls.errors ls.calls
    · exact Nat.le_refl _
    · exact Nat.le_refl _
    · exact fun hg => hg
  have hm2 : progValQ t1 ≤ progValQ t2 := by
    apply progValQ_mono
    · rw [t2_tar]
    · show t1.papersFound ≤ t2.papersFound
      have : t2.papersFound = t1.papersFound := by
        show e.task.papersFound = _
        rw [e_found, u1_found]
      rw [this]
    · show t1.papersDownloaded ≤ t2.papersDownloaded
      have : t2.papersDownloaded = t1.papersDownloaded := by
        show e.task.papersDownloaded = _
        rw [e_dc, u1_dc]
      rw [this]
    · show t1.papersExtracted ≤ e.ec
      have : t1.papersExtracted = ls.ec := by rw [← hec]
      rw [this]
      exact extStep_ec_ge pe u1.1 d.paper d.table ls.ec d.errors d.calls
    · show t1.papersSummarized ≤ t2.papersSummarized
      have : t2.papersSummarized = t1.papersSummarized := by
        show e.task.papersSummarized = _
        rw [e_sc, u1_sc]
      rw [this]
    · intro hg
      exfalso
      exact hng (by rw [← t1_stage]; exact hg)
  have hm3 : progValQ t2 ≤ progValQ t3 := by
    apply progValQ_mono
    · rw [t3_tar]
    · show t2.papersFound ≤ t3.papersFound
      have : t3.papersFound = t2.papersFound := by
        show s.task.papersFound = _
        rw [s_found, u2_found]
      rw [this]
    · show t2.papersDownloaded ≤ t3.papersDownloaded
      have : t3.papersDownloaded = t2.papersDownloaded := by
        show s.task.papersDownloaded = _
        rw [s_dc, u2_dc]
      rw [this]
    · show t2.papersExtracted ≤ t3.papersExtracted
      have : t3.papersExtracted = t2.papersExtracted := by
        show s.task.papersExtracted = _
        rw [s_ec, u2_ec]
      rw [this]
    · show t2.papersSummarized ≤ s.sc
      have : t2.papersSummarized = ls.sc := by
        show e.task.papersSummarized = ls.sc
        rw [e_sc, u1_sc, ← hsc]
      rw [this]
      exact summStep_sc_ge pe u2.1 e.paper e.table ls.sc e.errors e.calls
    · intro hg
      exfalso
      exact e_sng (by rw [← t2_stage_src]; exact hg)
  -- cap facts
  have hP99 : ls.task.progressPercent.toRat ≤ 99 := by
    rw [hprog]; exact min_le_right _ _
  have hv1_99 : u1.1.progressPercent.toRat ≤ 99 := by
    rw [u1_val]; exact min_le_right _ _
  have hv2_99 : u2.1.progressPercent.toRat ≤ 99 := by
    rw [u2_val]; exact min_le_right _ _
  have hv3_99 : u3.1.progressPercent.toRat ≤ 99 := by
    rw [u3_val]; exact min_le_right _ _
  -- snapshot pushes
  have t1_prog : t1.progressPercent = ls.task.progressPercent := rfl
  have M1 := meta.pushEq t1 (by rw [t1_prog]) (by rw [t1_stat, hrun]; exact jstatus_run_ne_fin) hP99
  have hle1 : ls.task.progressPercent.toRat ≤ u1.1.progressPercent.toRat := by
    rw [hprog, u1_val]
    exact min_le_min hm1 (le_refl _)
  have M2 := M1.push u1.1 hle1 (by rw [hrun1]; exact jstatus_run_ne_fin) hv1_99
  have hδe : e.snaps = [] ∨ (e.snaps = [e.task] ∧
      e.task.progressPercent.toRat = u1.1.progressPercent.toRat ∧
      e.task.status = JobStatus.running) := by
    rcases hef with ⟨_, hes⟩ | ⟨_, hes⟩
    · exact Or.inl hes
    · exact Or.inr ⟨hes, by rw [e_prog], by rw [e_stat]; exact hrun1⟩
  have M3 := M2.pushStage e.snaps e.task hδe hv1_99
  have t2_prog : t2.progressPercent = e.task.progressPercent := rfl
  have M4 := M3.pushEq t2 (by rw [t2_prog, e_prog]) (by rw [t2_stat, e_stat, hrun1]; exact jstatus_run_ne_fin) hv1_99
  have hle2 : u1.1.progressPercent.toRat ≤ u2.1.progressPercent.toRat := by
    rw [u1_val, u2_val]
    exact min_le_min hm2 (le_refl _)
  have M5 := M4.push u2.1 hle2 (by rw [hrun2]; exact jstatus_run_ne_fin) hv2_99
  have hδs : s.snaps = [] ∨ (s.snaps = [s.task] ∧
      s.task.progressPercent.toRat = u2.1.progressPercent.toRat ∧
      s.task.status = JobStatus.running) := by
    rcases hsf with ⟨_, hss⟩ | ⟨_, hss⟩
    · exact Or.inl hss
    · exact Or.inr ⟨hss, by rw [s_prog], by rw [s_stat]; exact hrun2⟩
  have M6 := M5.pushStage s.snaps s.task hδs hv2_99
  have t3_prog : t3.progressPercent = s.task.progressPercent := rfl
  have M7 := M6.pushEq t3 (by rw [t3_prog, s_prog]) (by rw [t3_stat, s_stat, hrun2]; exact jstatus_run_ne_fin) hv2_99
  have hle3 : u2.1.progressPercent.toRat ≤ u3.1.progressPercent.toRat := by
    rw [u2_val, u3_val]
    exact min_le_min hm3 (le_refl _)
  have M8 := M7.push u3.1 hle3 (by rw [hrun3]; exact jstatus_run_ne_fin) hv3_99
  -- assemble
  rw [hstep]
  have hsnapeq : ls.snaps ++ ([t1] ++ u1.2 ++ e.snaps ++ [t2] ++ u2.2 ++ s.snaps
      ++ [t3] ++ u3.2) =
      ls.snaps ++ [t1] ++ [u1.1] ++ e.snaps ++ [t2] ++ [u2.1] ++ s.snaps ++ [t3] ++ [u3.1] := by
    rw [updateStep_snaps t1 htar1, updateStep_snaps t2 htar2, updateStep_snaps t3 htar3]
    simp [List.append_assoc]
  refine ⟨?_, hrun3, ?_, ?_, ?_, ?_, ?_, ?_, u3_den⟩
  · show SnapMeta _ u3.1.progressPercent.toRat
    rw [hsnapeq]
    exact M8
  · show u3.1.currentStage ≠ some JobStage.generatingReview
    rw [u3_stage]
    show s.task.currentStage ≠ _
    exact s_sng
  · show u3.1.papersDownloaded = d.dc
    rw [u3_dc]
    show s.task.papersDownloaded = d.dc
    rw [s_dc, u2_dc]
    show e.task.papersDownloaded = d.dc
    rw [e_dc, u1_dc]
  · show u3.1.papersExtracted = e.ec
    rw [u3_ec]
    show s.task.papersExtracted = e.ec
    rw [s_ec, u2_ec]
  · show u3.1.papersSummarized = s.sc
    rw [u3_sc]
  · show u3.1.totalPapersTarget ≠ 0
    rw [u3_tar]
    exact htar3
  · show u3.1.progressPercent.toRat = min (progValQ u3.1) 99
    rw [u3_val]
    have : progValQ t3 = progValQ u3.1 :=
      progValQ_congr t3 u3.1 u3_found.symm u3_tar.symm u3_dc.symm u3_ec.symm u3_sc.symm
        u3_stage.symm
    rw [this]

theorem SnapMeta.iffProp {snaps : List ReviewTask} {lastP : ℚ} (h : SnapMeta snaps lastP) :
    ∀ s ∈ snaps, (s.progressPercent.toRat = 100 ↔ s.status = JobStatus.finished) := by
  intro s hs
  obtain ⟨hfin, h99⟩ := h.ok s hs
  constructor
  · intro h100
    rw [h100] at h99
    norm_num at h99
  · intro hfin2
    exact absurd hfin2 hfin

theorem chain_push_last {snaps : List ReviewTask} {lastP : ℚ} (h : SnapMeta snaps lastP)
    (t : ReviewTask) (hle : lastP ≤ t.progressPercent.toRat) :
    List.Chain' (· ≤ ·) ((snaps ++ [t]).map (fun s => s.progressPercent.toRat)) := by
  rw [List.map_append, List.chain'_append]
  refine ⟨h.chain, List.chain'_singleton _, ?_⟩
  intro x hx y hy
  rw [h.lastEq] at hx
  simp only [List.map_cons, List.map_nil, List.head?_cons, Option.mem_def,
    Option.some_inj] at hx hy
  rw [← hx, ← hy]
  exact hle

theorem foldl_traceInv (pes : List PaperEnv) (ls : LoopState) (h : TraceInv ls) :
    TraceInv (pes.foldl loopStep ls) := by
  induction pes generalizing ls with
  | nil => exact h
  | cons pe pes ih => exact ih (loopStep ls pe) (loopStep_traceInv ls pe h)

theorem prelude_traceInv (tbl : List Paper) (pes : List PaperEnv)
    (hne : pes.isEmpty = false) :
    TraceInv (preludeState (startTask freshTask) tbl pes) := by
  have hn : pes.length ≠ 0 := by
    cases pes with
    | nil => cases hne
    | cons a l => simp
  set t1 := startTask freshTask with ht1
  set t2 : ReviewTask :=
    { t1 with papersFound := pes.length, totalPapersTarget := pes.length } with ht2
  set u := updateTaskProgressStep t2 with hu
  set t4 : ReviewTask := { u.1 with currentStage := some JobStage.downloadingPdfs } with ht4
  have hpre : preludeState (startTask freshTask) tbl pes =
      { task := t4, table := tbl, dc := 0, ec := 0, sc := 0, processed := [], errors := [],
        calls := [], snaps := [t1, t2] ++ u.2 ++ [t4] } := rfl
  obtain ⟨u_stat, u_stage, u_found, u_tar, u_dc, u_ec, u_sc, u_res, u_err, u_ids⟩ :=
    updateStep_taskFields t2
  have htar2 : t2.totalPapersTarget ≠ 0 := hn
  obtain ⟨u_val, u_den⟩ := updateStep_toRat t2 htar2
  have husnaps := updateStep_snaps t2 htar2
  have h0 : t1.progressPercent.toRat = 0 := by
    show (PyFloat.ofNat 0).toRat = 0
    rw [PyFloat.toRat_ofNat]
    norm_num
  have M0 : SnapMeta [t1] t1.progressPercent.toRat := by
    refine ⟨by simp, by simp, ?_⟩
    intro s hsm
    rw [List.mem_singleton.mp hsm]
    constructor
    · show JobStatus.running ≠ JobStatus.finished
      decide
    · rw [h0]
      norm_num
  have M1 := M0.pushEq t2 rfl
    (by show JobStatus.running ≠ JobStatus.finished; decide)
    (by rw [h0]; norm_num)
  have hle : t1.progressPercent.toRat ≤ u.1.progressPercent.toRat := by
    rw [h0, u_val]
    exact le_min (progValQ_nonneg t2) (by norm_num)
  have hrunu : u.1.status = JobStatus.running := by
    rw [u_stat]
    show JobStatus.running = _
    rfl
  have M2 := M1.push u.1 hle (by rw [hrunu]; exact jstatus_run_ne_fin)
    (by rw [u_val]; exact min_le_right _ _)
  have M3 := M2.pushEq t4 rfl
    (by show t4.status ≠ _
        have : t4.status = u.1.status := rfl
        rw [this, hrunu]
        exact jstatus_run_ne_fin)
    (by rw [u_val]; exact min_le_right _ _)
  rw [hpre]
  have hstagene : u.1.currentStage ≠ some JobStage.generatingReview := by
    rw [u_stage]
    show some JobStage.searchingOpenalex ≠ _
    decide
  have hpv : progValQ t4 = progValQ t2 := by
    have h1 : progValQ t4 = progValQ u.1 :=
      progValQ_stage u.1 (some JobStage.downloadingPdfs) hstagene (by decide)
    have h2 : progValQ u.1 = progValQ t2 :=
      progValQ_congr u.1 t2 u_found u_tar u_dc u_ec u_sc u_stage
    rw [h1, h2]
  refine ⟨?_, ?_, ?_, ?_, ?_, ?_, ?_, ?_, u_den⟩
  · show SnapMeta ([t1, t2] ++ u.2 ++ [t4]) t4.progressPercent.toRat
    rw [husnaps]
    have hsh : [t1, t2] ++ [u.1] ++ [t4] = [t1] ++ [t2] ++ [u.1] ++ [t4] := by simp
    rw [hsh]
    exact M3
  · show t4.status = JobStatus.running
    have : t4.status = u.1.status := rfl
    rw [this, hrunu]
  · show some JobStage.downloadingPdfs ≠ some JobStage.generatingReview
    decide
  · show t4.papersDownloaded = 0
    have : t4.papersDownloaded = u.1.papersDownloaded := rfl
    rw [this, u_dc]
    rfl
  · show t4.papersExtracted = 0
    have : t4.papersExtracted = u.1.papersExtracted := rfl
    rw [this, u_ec]
    rfl
  · show t4.papersSummarized = 0
    have : t4.papersSummarized = u.1.papersSummarized := rfl
    rw [this, u_sc]
    rfl
  · show t4.totalPapersTarget ≠ 0
    have : t4.totalPapersTarget = u.1.totalPapersTarget := rfl
    rw [this, u_tar]
    exact htar2
  · show t4.progressPercent.toRat = min (progValQ t4) 99
    have : t4.progressPercent = u.1.progressPercent := rfl
    rw [this, u_val, hpv]

/-- The post-loop phase keeps the trace monotone, and "progress = 100 iff
finished" holds for every persisted row. -/
theorem finishJob_trace (ls : LoopState) (pes : List PaperEnv)
    (gen : Except String String) (h : TraceInv ls) :
    List.Chain' (· ≤ ·) ((finishJob ls pes gen).snaps.map
      (fun s => s.progressPercent.toRat)) ∧
    ∀ s ∈ (finishJob ls pes gen).snaps,
      (s.progressPercent.toRat = 100 ↔ s.status = JobStatus.finished) := by
  obtain ⟨meta, hrun, hng, hdc, hec, hsc, htar, hprog, hden⟩ := h
  have hP99 : ls.task.progressPercent.toRat ≤ 99 := by
    rw [hprog]; exact min_le_right _ _
  unfold finishJob
  rcases hemp : ls.processed.isEmpty with _ | _
  · simp only [Bool.false_eq_true, if_false]
    set t5 : ReviewTask := { ls.task with currentStage := some JobStage.generatingReview }
      with ht5
    set u := updateTaskProgressStep t5 with hu
    obtain ⟨u_stat, u_stage, u_found, u_tar, u_dc, u_ec, u_sc, u_res, u_err, u_ids⟩ :=
      updateStep_taskFields t5
    have htar5 : t5.totalPapersTarget ≠ 0 := htar
    obtain ⟨u_val, u_den⟩ := updateStep_toRat t5 htar5
    have husnaps := updateStep_snaps t5 htar5
    have hrun5 : t5.status = JobStatus.running := hrun
    have hrunu : u.1.status = JobStatus.running := by rw [u_stat]; exact hrun5
    have M1 := meta.pushEq t5 rfl (by rw [hrun5]; exact jstatus_run_ne_fin) hP99
    have hm : progValQ ls.task ≤ progValQ t5 := by
      apply progValQ_mono
      · rfl
      · exact Nat.le_refl _
      · exact Nat.le_refl _
      · exact Nat.le_refl _
      · exact Nat.le_refl _
      · intro _
        rfl
    have hle : ls.task.progressPercent.toRat ≤ u.1.progressPercent.toRat := by
      rw [hprog, u_val]
      exact min_le_min hm (le_refl _)
    have M2 := M1.push u.1 hle (by rw [hrunu]; exact jstatus_run_ne_fin)
      (by rw [u_val]; exact min_le_right _ _)
    rcases gen with m | g
    · set tE : ReviewTask := { u.1 with
        errorMessage := some ("Failed to generate final review: " ++ m)
        status := JobStatus.failed } with htE
      have ME := M2.pushEq tE rfl
        (by show JobStatus.failed ≠ _; decide)
        (by rw [u_val]; exact min_le_right _ _)
      constructor
      · show List.Chain' _ ((ls.snaps ++ [t5] ++ u.2 ++ [tE]).map _)
        rw [husnaps]
        exact ME.chain
      · show ∀ s ∈ ls.snaps ++ [t5] ++ u.2 ++ [tE], _
        rw [husnaps]
        exact ME.iffProp
    · set tS := finishSave u.1 (finalReview (pyStrip g) ls.processed.length pes.length
        ls.errors.length) with htS
      have h100 : tS.progressPercent.toRat = 100 := by
        show (PyFloat.ofNat 100).toRat = 100
        rw [PyFloat.toRat_ofNat]
        norm_num
      have hleS : u.1.progressPercent.toRat ≤ tS.progressPercent.toRat := by
        rw [h100, u_val]
        have := min_le_right (progValQ t5) 99
        linarith
      constructor
      · show List.Chain' _ ((ls.snaps ++ [t5] ++ u.2 ++ [tS]).map _)
        rw [husnaps]
        exact chain_push_last M2 tS hleS
      · show ∀ s ∈ ls.snaps ++ [t5] ++ u.2 ++ [tS], _
        rw [husnaps]
        intro s hsm
        rcases List.mem_append.mp hsm with h1 | h1
        · exact M2.iffProp s h1
        · rw [List.mem_singleton.mp h1]
          constructor
          · intro _
            rfl
          · intro _
            exact h100
  · simp only [if_true]
    set tF : ReviewTask := { ls.task with
      errorMessage := some (errorSummaryMsg ls.dc ls.ec ls.sc pes.length ls.errors)
      status := JobStatus.failed } with htF
    have MF := meta.pushEq tF rfl (by show JobStatus.failed ≠ _; decide) hP99
    exact ⟨MF.chain, MF.iffProp⟩

/-- C2 amended: within one uninterrupted invocation of the pipeline on a
freshly created job, the persisted `progress_percent` values are
non-decreasing over the whole trace of saves, and a persisted row reports
exactly 100 if and only if its status is `finished`.  (Across a resumed
invocation the first half fails — see the counterexample — because the
stage counters are recomputed from zero and skip already-processed
documents.) -/
theorem c2_progress_monotone_single_invocation (tbl : List Paper) (env : RunEnv) :
    List.Chain' (· ≤ ·) ((runInvocation freshTask tbl env).snaps.map
      (fun s => s.progressPercent.toRat)) ∧
    ∀ s ∈ (runInvocation freshTask tbl env).snaps,
      (s.progressPercent.toRat = 100 ↔ s.status = JobStatus.finished) := by
  have h0 : (startTask freshTask).progressPercent.toRat = 0 := by
    show (PyFloat.ofNat 0).toRat = 0
    rw [PyFloat.toRat_ofNat]
    norm_num
  unfold runInvocation
  rcases hs : env.search with msg | pes
  · unfold searchFailState
    constructor
    · show List.Chain' _ ([_, _].map _)
      refine List.chain'_cons.mpr ⟨le_of_eq ?_, List.chain'_singleton _⟩
      rfl
    · intro s hsm
      have hv : s.progressPercent.toRat = 0 ∧ s.status ≠ JobStatus.finished := by
        rcases List.mem_cons.mp hsm with rfl | h1
        · exact ⟨h0, by show JobStatus.running ≠ _; decide⟩
        · rcases List.mem_singleton.mp h1 with rfl
          exact ⟨h0, by show JobStatus.failed ≠ _; decide⟩
      constructor
      · intro h100
        rw [h100] at hv
        norm_num at hv
      · intro hfin
        exact absurd hfin hv.2
  · rcases hemp : pes.isEmpty with _ | _
    · simp only [hemp, Bool.false_eq_true, if_false]
      have hinv := foldl_traceInv (pes.take 30)
        (preludeState (startTask freshTask) tbl pes) (prelude_traceInv tbl pes hemp)
      exact finishJob_trace _ pes env.gen hinv
    · simp only [hemp, if_true]
      unfold searchFailState
      constructor
      · show List.Chain' _ ([_, _].map _)
        refine List.chain'_cons.mpr ⟨le_of_eq ?_, List.chain'_singleton _⟩
        rfl
      · intro s hsm
        have hv : s.progressPercent.toRat = 0 ∧ s.status ≠ JobStatus.finished := by
          rcases List.mem_cons.mp hsm with rfl | h1
          · exact ⟨h0, by show JobStatus.running ≠ _; decide⟩
          · rcases List.mem_singleton.mp h1 with rfl
            exact ⟨h0, by show JobStatus.failed ≠ _; decide⟩
        constructor
        · intro h100
          rw [h100] at hv
          norm_num at hv
        · intro hfin
          exact absurd hfin hv.2

/-! ## C6: terminal rows -/

theorem loopStep_keeps (ls : LoopState) (pe : PaperEnv) :
    (loopStep ls pe).task.result = ls.task.result ∧
    (loopStep ls pe).task.errorMessage = ls.task.errorMessage := by
  set p1 := metaUpdate (getOrCreatePaper ls.table pe.pData).1 pe.pData with hp1
  set d := dlStep pe p1 (tableSet (getOrCreatePaper ls.table pe.pData).2 p1)
    ls.dc ls.errors ls.calls with hd
  set t0 : ReviewTask := { ls.task with paperIds := addId ls.task.paperIds p1.openalexId }
    with ht0
  set t1 : ReviewTask := { t0 with papersDownloaded := d.dc } with ht1
  set u1 := updateTaskProgressStep t1 with hu1
  set e := extStep pe u1.1 d.paper d.table ls.ec d.errors d.calls with he
  set t2 : ReviewTask := { e.task with papersExtracted := e.ec } with ht2
  set u2 := updateTaskProgressStep t2 with hu2
  set s := summStep pe u2.1 e.paper e.table ls.sc e.errors e.calls with hs
  set t3 : ReviewTask := { s.task with papersSummarized := s.sc } with ht3
  have htask : (loopStep ls pe).task = (updateTaskProgressStep t3).1 := rfl
  obtain ⟨_, _, _, _, _, _, _, u1r, u1e, _⟩ := updateStep_taskFields t1
  obtain ⟨_, _, _, _, _, _, _, u2r, u2e, _⟩ := updateStep_taskFields t2
  obtain ⟨_, _, _, _, _, _, _, u3r, u3e, _⟩ := updateStep_taskFields t3
  have he_r : e.task.result = u1.1.result := by
    rcases extStep_task pe u1.1 d.paper d.table ls.ec d.errors d.calls with
      ⟨het, _⟩ | ⟨het, _⟩ <;> rw [het]
  have he_e : e.task.errorMessage = u1.1.errorMessage := by
    rcases extStep_task pe u1.1 d.paper d.table ls.ec d.errors d.calls with
      ⟨het, _⟩ | ⟨het, _⟩ <;> rw [het]
  have hs_r : s.task.result = u2.1.result := by
    rcases summStep_task pe u2.1 e.paper e.table ls.sc e.errors e.calls with
      ⟨hst, _⟩ | ⟨hst, _⟩ <;> rw [hst]
  have hs_e : s.task.errorMessage = u2.1.errorMessage := by
    rcases summStep_task pe u2.1 e.paper e.table ls.sc e.errors e.calls with
      ⟨hst, _⟩ | ⟨hst, _⟩ <;> rw [hst]
  rw [htask]
  constructor
  · rw [u3r]
    show s.task.result = _
    rw [hs_r, u2r]
    show e.task.result = _
    rw [he_r, u1r]
  · rw [u3e]
    show s.task.errorMessage = _
    rw [hs_e, u2e]
    show e.task.errorMessage = _
    rw [he_e, u1e]

theorem foldl_keeps (pes : List PaperEnv) (ls : LoopState) :
    (pes.foldl loopStep ls).task.result = ls.task.result ∧
    (pes.foldl loopStep ls).task.errorMessage = ls.task.errorMessage := by
  induction pes generalizing ls with
  | nil => exact ⟨rfl, rfl⟩
  | cons pe pes ih =>
    have h := loopStep_keeps ls pe
    have h2 := ih (loopStep ls pe)
    exact ⟨h2.1.trans h.1, h2.2.trans h.2⟩

/-- Every invocation on a stored row whose `result` and `error_message` are
both null (as on first enqueue) ends `failed` with a non-null error and
null result, or `finished` with a non-null result and null error. -/
theorem run_final_shape (t0 : ReviewTask) (tbl : List Paper) (env : RunEnv)
    (hres : t0.result = none) (herr : t0.errorMessage = none) :
    ((runInvocation t0 tbl env).task.status = JobStatus.failed ∧
      (runInvocation t0 tbl env).task.errorMessage.isSome = true ∧
      (runInvocation t0 tbl env).task.result = none) ∨
    ((runInvocation t0 tbl env).task.status = JobStatus.finished ∧
      (runInvocation t0 tbl env).task.result.isSome = true ∧
      (runInvocation t0 tbl env).task.errorMessage = none) := by
  unfold runInvocation
  rcases hs : env.search with msg | pes
  · left
    unfold searchFailState
    exact ⟨rfl, rfl, hres⟩
  · rcases hemp : pes.isEmpty with _ | _
    · simp only [hemp, Bool.false_eq_true, if_false]
      have hpre : (preludeState (startTask t0) tbl pes).task.result = none ∧
          (preludeState (startTask t0) tbl pes).task.errorMessage = none := by
        obtain ⟨_, _, _, _, _, _, _, ur, ue, _⟩ := updateStep_taskFields
          { startTask t0 with
            papersFound := pes.length
            totalPapersTarget := pes.length }
        constructor
        · show (updateTaskProgressStep _).1.result = none
          rw [ur]
          exact hres
        · show (updateTaskProgressStep _).1.errorMessage = none
          rw [ue]
          exact herr
      set ls := (pes.take 30).foldl loopStep (preludeState (startTask t0) tbl pes)
        with hls
      have hfold := foldl_keeps (pes.take 30) (preludeState (startTask t0) tbl pes)
      have hls_r : ls.task.result = none := hfold.1.trans hpre.1
      have hls_e : ls.task.errorMessage = none := hfold.2.trans hpre.2
      unfold finishJob
      rcases hpemp : ls.processed.isEmpty with _ | _
      · simp only [hpemp, Bool.false_eq_true, if_false]
        set t5 : ReviewTask := { ls.task with currentStage := some JobStage.generatingReview }
          with ht5
        obtain ⟨_, _, _, _, _, _, _, ur5, ue5, _⟩ := updateStep_taskFields t5
        rcases hgen : env.gen with m | g
        · left
          refine ⟨rfl, rfl, ?_⟩
          show (updateTaskProgressStep t5).1.result = none
          rw [ur5]
          show ls.task.result = none
          exact hls_r
        · right
          refine ⟨rfl, rfl, ?_⟩
          show (updateTaskProgressStep t5).1.errorMessage = none
          rw [ue5]
          show ls.task.errorMessage = none
          exact hls_e
      · simp only [hpemp, if_true]
        left
        exact ⟨trivial, rfl, hls_r⟩
    · simp only [hemp, if_true]
      left
      unfold searchFailState
      exact ⟨rfl, rfl, hres⟩

/-- C6 amended: for any stored row whose `result` and `error_message` are both
null — in particular every job reaching a terminal state for the first time —
an invocation ends `finished` with a non-null `result` and a null
`error_message`, or `failed` with a non-null `error_message` and a null
`result`, always one of the two; the null-field precondition is essential:
no transition clears the opposite field, so a re-invoked row already carrying
one of them ends terminal with both non-null, and a *canceled* job keeps both
fields null (see the counterexample for both violations). -/
theorem c6_terminal_result_error (t0 : ReviewTask) (tbl : List Paper) (env : RunEnv)
    (hres : t0.result = none) (herr : t0.errorMessage = none) :
    ((runInvocation t0 tbl env).task.status = JobStatus.finished →
      (runInvocation t0 tbl env).task.result.isSome = true ∧
      (runInvocation t0 tbl env).task.errorMessage = none) ∧
    ((runInvocation t0 tbl env).task.status = JobStatus.failed →
      (runInvocation t0 tbl env).task.errorMessage.isSome = true ∧
      (runInvocation t0 tbl env).task.result = none) ∧
    ((runInvocation t0 tbl env).task.status = JobStatus.finished ∨
      (runInvocation t0 tbl env).task.status = JobStatus.failed) ∧
    ((cancelView freshTask).1.status = JobStatus.canceled ∧
      (cancelView freshTask).1.result = none ∧
      (cancelView freshTask).1.errorMessage = none) := by
  rcases run_final_shape t0 tbl env hres herr with h | h
  · refine ⟨?_, fun _ => ⟨h.2.1, h.2.2⟩, Or.inr h.1, by decide, by decide, by decide⟩
    intro hfin
    rw [h.1] at hfin
    exact absurd hfin (by decide)
  · refine ⟨fun _ => ⟨h.2.1, h.2.2⟩, ?_, Or.inl h.1, by decide, by decide, by decide⟩
    intro hfail
    rw [h.1] at hfail
    exact absurd hfail (by decide)

set_option maxRecDepth 8000 in
/-- The C6 conclusions at the concrete successful run on a fresh row, whose
`result` and `error_message` are both null. -/
theorem c6_witness :
    freshTask.result = none ∧ freshTask.errorMessage = none ∧
    ((runInvocation freshTask [] goodEnv).task.result.isSome = true ∧
      (runInvocation freshTask [] goodEnv).task.errorMessage = none) := by
  exact ⟨by decide, by decide,
    (c6_terminal_result_error freshTask [] goodEnv (by decide) (by decide)).1 (by decide)⟩
